import Mathlib

/-!
Verification of the in-memory student-table engine of the
`frontendstudentmanagement` repository: a shallow embedding, in Lean 4, of
the client-side filter / sort / pagination pipeline (`src/js/config.js`,
`StudentsManager`), the grade table (`GRADE_CONFIG`, `calculateGrade`), and
the CSV import/export subsystem (`ImportExportManager.parseCSV`,
`parseCSVRow`, `generateCSV`, `processStudentsThroughAPI`).

Modelling conventions:
* JavaScript numbers are modelled as `Rat`.  Every value a JS `number` can
  hold prints as a finite decimal, so the rationals reachable in the model
  are those with a 2-5-smooth denominator; rendering (`jsNumToString`) is
  faithful on exactly those.
* JS strings are Lean `String`s; `undefined`/`null` object fields are
  `Option.none`.  JS truthiness of a string-or-absent value is `truthyS`.
* `String.prototype.trim` is `jsTrim` (the ECMAScript whitespace set,
  restricted to the code points that can actually occur here).
* `Array.prototype.sort` is stable for a consistent comparator
  (ECMA-262 §23.1.3.30), so it is embedded as a stable insertion sort
  parameterised by the source comparator.
-/

namespace StudentMgmt

/-- Whitespace recognised by ECMAScript `trim` (WhiteSpace ∪ LineTerminator),
restricted to the code points occurring in this code base's data. -/
def isJsWhitespace (c : Char) : Bool :=
  c = ' ' || c = '\t' || c = '\n' || c = '\r' ||
  c = '\x0b' || c = '\x0c' || c = ' ' || c = '﻿'

/-- `String.prototype.trim` on a character list. -/
def trimChars (l : List Char) : List Char :=
  ((l.dropWhile isJsWhitespace).reverse.dropWhile isJsWhitespace).reverse

/-- `String.prototype.trim`. -/
def jsTrim (s : String) : String :=
  String.mk (trimChars s.toList)

/-- JS truthiness of a value that is either a string or absent
(`undefined`/`null` and `''` are falsy, every other string truthy). -/
def truthyS : Option String → Bool
  | none => false
  | some s => !s.isEmpty

/-- `Char.toLower`-based model of `String.prototype.toLowerCase`
(ASCII-accurate; no claim in this development depends on non-ASCII
lowercasing). -/
def jsToLower (s : String) : String :=
  String.mk (s.toList.map Char.toLower)

/-- `needle` occurs as a prefix of `hay` (used to model `String.includes`). -/
def startsWithChars : List Char → List Char → Bool
  | [], _ => true
  | _ :: _, [] => false
  | n :: ns, h :: hs => n = h && startsWithChars ns hs

/-- `hay.includes(needle)` on character lists. -/
def hasSubChars (needle : List Char) : List Char → Bool
  | [] => startsWithChars needle []
  | c :: cs => startsWithChars needle (c :: cs) || hasSubChars needle cs

/-- `String.prototype.includes`. -/
def jsIncludes (hay needle : String) : Bool :=
  hasSubChars needle.toList hay.toList

-- =====================================================
-- Grade table (src/js/config.js, GRADE_CONFIG / calculateGrade)
-- =====================================================

/-- `GRADE_CONFIG` of `src/js/config.js` (label, `min`), in object-literal
insertion order, which is the order `Object.entries` iterates. -/
def GRADE_CONFIG : List (String × Rat) :=
  [("A", mkRat 17 2), ("B", 7), ("C", mkRat 11 2), ("D", 4), ("F", 0)]

/-- The `for (const [grade, config] of Object.entries(GRADE_CONFIG))` loop
body of `calculateGrade`: first entry whose `min` the score reaches, with
the trailing `return 'F'`. -/
def gradeScan : List (String × Rat) → Rat → String
  | [], _ => "F"
  | (g, m) :: rest, q => if m ≤ q then g else gradeScan rest q

/-- `calculateGrade` of `src/js/config.js` (lines 1010-1020): `''` for an
absent average, otherwise the first grade whose threshold is reached. -/
def calculateGrade : Option Rat → String
  | none => ""
  | some q => gradeScan GRADE_CONFIG q

-- =====================================================
-- The student record of the working set (shape of the API objects
-- consumed by StudentsManager)
-- =====================================================

/-- A student record as held in `StudentsManager.allStudents`: the JSON
object fields used by the filter/sort/pagination pipeline and by
`generateCSV`.  Absent (`undefined`/`null`) fields are `none`. -/
structure Student where
  id : Option Nat := none
  student_id : Option String := none
  first_name : Option String := none
  last_name : Option String := none
  full_name : Option String := none
  email : Option String := none
  birth_date : Option String := none
  hometown : Option String := none
  math_score : Option Rat := none
  literature_score : Option Rat := none
  english_score : Option Rat := none
  average_score : Option Rat := none
deriving DecidableEq

-- =====================================================
-- Filtering (src/js/config.js, StudentsManager.applyLocalFilters, lines
-- 451-484) and the filter state (src/js/components.js, FilterManager)
-- =====================================================

/-- The `FilterManager` criteria object: each key is absent (`none`, the
state `setFilter` leaves after a `null`/`undefined`/`''` value) or holds a
string. -/
structure Filters where
  search : Option String := none
  hometown : Option String := none
  grade : Option String := none
deriving DecidableEq

/-- One disjunct of the search predicate:
`student.field?.toLowerCase().includes(searchTerm)` (optional chaining:
an absent field is falsy). -/
def optFieldHasTerm (field : Option String) (term : String) : Bool :=
  match field with
  | none => false
  | some s => jsIncludes (jsToLower s) term

/-- The search-term predicate of `applyLocalFilters` (lines 459-468). -/
def searchMatch (term : String) (st : Student) : Bool :=
  optFieldHasTerm st.student_id term ||
  optFieldHasTerm st.first_name term ||
  optFieldHasTerm st.last_name term ||
  optFieldHasTerm st.full_name term ||
  optFieldHasTerm st.email term ||
  optFieldHasTerm st.hometown term

/-- The filtering step of `StudentsManager.applyLocalFilters`
(`src/js/config.js` lines 451-484): search filter, hometown filter, grade
filter, each applied only when its criterion is truthy. -/
def filterStudents (filters : Filters) (allStudents : List Student) : List Student :=
  let fs := allStudents
  let fs := if truthyS filters.search then
      fs.filter (fun st => searchMatch (jsToLower (filters.search.getD "")) st)
    else fs
  let fs := if truthyS filters.hometown then
      fs.filter (fun st => st.hometown = filters.hometown)
    else fs
  let fs := if truthyS filters.grade then
      fs.filter (fun st => calculateGrade st.average_score = filters.grade.getD "")
    else fs
  fs

-- =====================================================
-- Pagination (src/js/config.js, StudentsManager.applyLocalFilters, lines
-- 492-506)
-- =====================================================

/-- Result of the pagination step: the page slice (`this.students`),
`this.totalPages`, and the possibly-clamped `this.currentPage`. -/
structure PageResult (α : Type) where
  items : List α
  totalPages : Nat
  page : Int
deriving DecidableEq

/-- The pagination step of `StudentsManager.applyLocalFilters`
(`src/js/config.js` lines 492-506):
`totalPages = Math.ceil(totalItems / pageSize)`; the current page is
clamped down only when `totalPages > 0` and raised to `1` when below `1`;
then `slice((page-1)*pageSize, page*pageSize)`. -/
def paginationStep (filtered : List α) (currentPage : Int) (pageSize : Nat) :
    PageResult α :=
  let totalItems := filtered.length
  let totalPages := (totalItems + pageSize - 1) / pageSize
  let page :=
    if currentPage > totalPages ∧ totalPages > 0 then (totalPages : Int)
    else if currentPage < 1 then 1
    else currentPage
  let startIndex := ((page - 1) * pageSize).toNat
  { items := (filtered.drop startIndex).take pageSize
    totalPages := totalPages
    page := page }

-- =====================================================
-- JS number parsing and printing
-- =====================================================

/-- Numeric value of a decimal digit character, `none` otherwise. -/
def digitVal? (c : Char) : Option Nat :=
  if '0' ≤ c ∧ c ≤ '9' then some (c.toNat - 48) else none

/-- Greedily split a leading run of decimal digits from a character list. -/
def takeDigits : List Char → List Nat × List Char
  | [] => ([], [])
  | c :: cs =>
    match digitVal? c with
    | some d => let r := takeDigits cs; (d :: r.1, r.2)
    | none => ([], c :: cs)

/-- Value of a big-endian digit list (Horner evaluation). -/
def digitsToNat (ds : List Nat) : Nat :=
  ds.foldl (fun a d => a * 10 + d) 0

/-- Parse an unsigned decimal numeral (`digits`, `digits.digits`, `.digits`,
`digits.`) at the head of the list, returning its value and the unconsumed
tail; `none` when no digit is found. -/
def parseDecMantissa (l : List Char) : Option (Rat × List Char) :=
  let ipr := takeDigits l
  match ipr.2 with
  | '.' :: r2 =>
    let fpr := takeDigits r2
    if ipr.1 = [] ∧ fpr.1 = [] then none
    else some ((digitsToNat ipr.1 : Rat) + mkRat (digitsToNat fpr.1) (10 ^ fpr.1.length), fpr.2)
  | _ => if ipr.1 = [] then none else some ((digitsToNat ipr.1 : Rat), ipr.2)

/-- Parse an optionally signed decimal numeral at the head of the list. -/
def parseSignedDec : List Char → Option (Rat × List Char)
  | '-' :: t => (parseDecMantissa t).map (fun r => (-r.1, r.2))
  | '+' :: t => parseDecMantissa t
  | l => parseDecMantissa l

/-- `parseFloat`: skip leading whitespace, parse the longest signed decimal
prefix, ignore the rest; `none` models `NaN`.  (Exponent notation and
`Infinity` are not modelled; no score cell in this code base uses them.) -/
def jsParseFloat (s : String) : Option Rat :=
  match parseSignedDec (s.toList.dropWhile isJsWhitespace) with
  | some r => some r.1
  | none => none

/-- `Number(string)` coercion as used by the `<`/`>` operators on mixed
operands: whitespace-only strings are `0`, otherwise the whole string must
be a signed decimal numeral; `none` models `NaN`.  (Hex/exponent forms are
not modelled; no comparable field in this code base holds them.) -/
def jsToNumber (s : String) : Option Rat :=
  let t := trimChars s.toList
  if t.isEmpty then some 0
  else
    match parseSignedDec t with
    | some (q, []) => some q
    | _ => none

/-- Multiplicity of `p` in `n` (0 when `p ≤ 1` or `n = 0`). -/
def multOf (p n : Nat) : Nat :=
  if h : 1 < p ∧ 0 < n ∧ p ∣ n then multOf p (n / p) + 1 else 0
termination_by n
decreasing_by exact Nat.div_lt_self h.2.1 h.1

/-- `n` with all factors `p` divided out. -/
def removeFac (p n : Nat) : Nat :=
  if h : 1 < p ∧ 0 < n ∧ p ∣ n then removeFac p (n / p) else n
termination_by n
decreasing_by exact Nat.div_lt_self h.2.1 h.1

/-- `n` has only 2 and 5 as prime factors — exactly the denominators of
rationals with a finite decimal expansion (every JS number is one). -/
def decimalDen (n : Nat) : Bool :=
  removeFac 5 (removeFac 2 n) = 1

/-- Little-endian base-10 digits of `n`, with explicit fuel so that the
kernel can evaluate it (`natDigits` supplies sufficient fuel). -/
def digitsLE : Nat → Nat → List Nat
  | 0, _ => []
  | _, 0 => []
  | fuel + 1, n + 1 => (n + 1) % 10 :: digitsLE fuel ((n + 1) / 10)

/-- Little-endian base-10 digits of `n` (`[]` for 0). -/
def natDigits (n : Nat) : List Nat := digitsLE n n

/-- The character of a decimal digit. -/
def decDigitChar (d : Nat) : Char := Char.ofNat (48 + d)

/-- Big-endian decimal digit characters of `n` (`[]` for 0). -/
def natCharsBE (n : Nat) : List Char := ((natDigits n).map decDigitChar).reverse

/-- Big-endian decimal digit characters of `n`, printing 0 as `"0"`. -/
def natCharsOrZero (n : Nat) : List Char := if n = 0 then ['0'] else natCharsBE n

/-- Left-pad a digit string with zeros to length `e`. -/
def padZeros (e : Nat) (l : List Char) : List Char :=
  List.replicate (e - l.length) '0' ++ l

/-- The number of decimal fraction digits of `q` (the least `e` with
`q * 10^e` integral, for a 2-5-smooth denominator). -/
def decExp (q : Rat) : Nat := max (multOf 2 q.den) (multOf 5 q.den)

/-- `|q| * 10^decExp q` as a natural number (exact for 2-5-smooth
denominators). -/
def decMantissa (q : Rat) : Nat := q.num.natAbs * 10 ^ decExp q / q.den

/-- The decimal digit rendering of `|q|`: integer digits, and a fraction
part exactly when `decExp q ≠ 0`. -/
def decChars (q : Rat) : List Char :=
  if decExp q = 0 then natCharsOrZero (decMantissa q)
  else
    natCharsOrZero (decMantissa q / 10 ^ decExp q) ++
      '.' :: padZeros (decExp q) (natCharsBE (decMantissa q % 10 ^ decExp q))

/-- `String(number)`: the shortest decimal rendering, faithful for every
rational with a 2-5-smooth denominator (which includes every value a JS
number can take; other denominators cannot arise from JS doubles and get an
unspecified-but-total rendering here). -/
def jsNumToString (q : Rat) : String :=
  if q < 0 then String.mk ('-' :: decChars q) else String.mk (decChars q)

/-- `number.toFixed(2)`: two-decimal rendering, rounding half away from
zero on exact rationals (JS rounds on the underlying double; no claim in
this development depends on the tie behaviour). -/
def jsToFixed2 (q : Rat) : String :=
  let c : Int := (q * 100 + mkRat 1 2).floor
  let sign : List Char := if c < 0 then ['-'] else []
  let n := c.natAbs
  String.mk (sign ++ natCharsOrZero (n / 100) ++ '.' :: padZeros 2 (natCharsBE (n % 100)))

-- =====================================================
-- Sorting (src/js/config.js, StudentsManager.sortStudents, lines 523-559)
-- =====================================================

/-- A comparison value of the sort comparator: after the normalisation in
`sortStudents`, every compared value is a string or a number. -/
inductive SortVal
  | str (s : String)
  | num (q : Rat)
deriving DecidableEq

/-- The JS `<` operator on the values compared by `sortStudents`:
string-string is code-unit lexicographic (Lean code-point order — identical
off the astral plane), any other pair compares numerically after `Number`
coercion, `NaN` making both `<` and `>` false. -/
def jsLt : SortVal → SortVal → Bool
  | .str a, .str b => decide (a < b)
  | .num a, .num b => decide (a < b)
  | .str a, .num b =>
    match jsToNumber a with
    | some q => decide (q < b)
    | none => false
  | .num a, .str b =>
    match jsToNumber b with
    | some q => decide (a < q)
    | none => false

/-- `comparison` of `sortStudents`: `-1` when `aVal < bVal`, `1` when
`aVal > bVal`, else `0`. -/
def cmpVals (a b : SortVal) : Int :=
  if jsLt a b then -1 else if jsLt b a then 1 else 0

/-- The closed set of sort keys reachable through `a[sortBy]` plus the
special-cased `grade`. -/
inductive SortKey
  | id | student_id | first_name | last_name | full_name | email
  | birth_date | hometown | math_score | literature_score | english_score
  | average_score | grade
deriving DecidableEq

/-- Sort direction (`order` of `this.currentSort`). -/
inductive SortOrder
  | asc | desc
deriving DecidableEq

/-- `this.currentSort`. -/
structure SortSpec where
  sortBy : SortKey
  order : SortOrder
deriving DecidableEq

/-- `gradeOrder[grade] || 6` of `sortStudents` (lines 535-537). -/
def gradeRank (g : String) : Rat :=
  if g = "A" then 1 else if g = "B" then 2 else if g = "C" then 3
  else if g = "D" then 4 else if g = "F" then 5 else 6

/-- `x || ''` on an optional string. -/
def orEmptyStr (v : Option String) : String :=
  match v with
  | some s => s
  | none => ""

/-- Normalisation of a string-or-absent field value in `sortStudents`
(lines 542-548): `null`/`undefined` become `''`, strings are lowercased. -/
def strKeyVal (v : Option String) : SortVal := .str (jsToLower (orEmptyStr v))

/-- Normalisation of a numeric-or-absent field value in `sortStudents`:
`null`/`undefined` become `''`, numbers stay numbers. -/
def numKeyVal (v : Option Rat) : SortVal :=
  match v with
  | some q => .num q
  | none => .str ""

/-- The value `sortStudents` extracts for a record under a sort key
(lines 529-549). -/
def sortKeyVal : SortKey → Student → SortVal
  | .grade, st => .num (gradeRank (calculateGrade st.average_score))
  | .id, st =>
    match st.id with
    | some n => .num n
    | none => .str ""
  | .student_id, st => strKeyVal st.student_id
  | .first_name, st => strKeyVal st.first_name
  | .last_name, st => strKeyVal st.last_name
  | .full_name, st => strKeyVal st.full_name
  | .email, st => strKeyVal st.email
  | .birth_date, st => strKeyVal st.birth_date
  | .hometown, st => strKeyVal st.hometown
  | .math_score, st => numKeyVal st.math_score
  | .literature_score, st => numKeyVal st.literature_score
  | .english_score, st => numKeyVal st.english_score
  | .average_score, st => numKeyVal st.average_score

/-- The comparator passed to `students.sort` (lines 526-558), `desc`
realised by negating the ascending comparison result. -/
def compareStudents (spec : SortSpec) (a b : Student) : Int :=
  let c := cmpVals (sortKeyVal spec.sortBy a) (sortKeyVal spec.sortBy b)
  if spec.order = .desc then -c else c

/-- Insert `x` after every element it does not strictly precede — the
insertion step of a stable sort. -/
def stableInsert (le : α → α → Bool) (x : α) : List α → List α
  | [] => [x]
  | y :: ys => if le x y then x :: y :: ys else y :: stableInsert le x ys

/-- Stable insertion sort: the embedding of `Array.prototype.sort`, which
ECMA-262 guarantees to be stable. -/
def stableSort (le : α → α → Bool) : List α → List α
  | [] => []
  | x :: xs => stableInsert le x (stableSort le xs)

/-- `StudentsManager.sortStudents`: stable sort under the source
comparator. -/
def sortStudents (spec : SortSpec) (l : List Student) : List Student :=
  stableSort (fun a b => decide (compareStudents spec a b ≤ 0)) l

-- =====================================================
-- CSV row tokenizer (ImportExportManager.parseCSVRow)
-- =====================================================

/-- The character loop of `parseCSVRow`: `inQuotes` state, accumulated
`current` field, doubled quotes collapsing inside quotes, fields pushed
trimmed at unquoted commas and at end of input. -/
def parseCSVRowGo : List Char → Bool → List Char → List String
  | [], _, current => [String.mk (trimChars current)]
  | '"' :: '"' :: rest2, true, current => parseCSVRowGo rest2 true (current ++ ['"'])
  | '"' :: rest, inQuotes, current => parseCSVRowGo rest (!inQuotes) current
  | ',' :: rest, false, current =>
    String.mk (trimChars current) :: parseCSVRowGo rest false []
  | c :: rest, inQuotes, current => parseCSVRowGo rest inQuotes (current ++ [c])

/-- `ImportExportManager.parseCSVRow` (src/unnamed/part_001, lines
1421-1452). -/
def parseCSVRow (row : String) : List String :=
  parseCSVRowGo row.toList false []

-- =====================================================
-- CSV serializer (ImportExportManager.generateCSV, lines 1561-1595)
-- =====================================================

/-- `cell.replace(/"/g, '""')` on a character list. -/
def escChars (l : List Char) : List Char :=
  (l.map (fun c => if c = '"' then ['"', '"'] else [c])).flatten

/-- Quote a cell for CSV output: internal quotes doubled, then wrapped in
double quotes. -/
def quoteCell (s : String) : String :=
  "\"" ++ String.mk (escChars s.toList) ++ "\""

/-- `Array.prototype.join(sep)`. -/
def joinSep (sep : String) : List String → String
  | [] => ""
  | [x] => x
  | x :: xs => x ++ sep ++ joinSep sep xs

/-- A cell of the export row array: `generateCSV` mixes strings and
numbers and stringifies each with `String(cell)`. -/
inductive Cell
  | s (v : String)
  | n (q : Rat)

/-- `String(cell)`. -/
def cellToString : Cell → String
  | .s v => v
  | .n q => jsNumToString q

/-- `x || 0` on an optional number. -/
def orZeroNum (v : Option Rat) : Rat :=
  match v with
  | some q => q
  | none => 0

/-- The header row of `generateCSV`. -/
def exportHeaders : List String :=
  ["Mã số sinh viên", "Họ tên", "Email", "Ngày sinh", "Quê quán",
   "Điểm Toán", "Điểm Văn", "Điểm Anh", "Điểm trung bình"]

/-- The `row` array of `generateCSV` (lines 1575-1585). -/
def exportRowCells (st : Student) : List Cell :=
  [.s (orEmptyStr st.student_id), .s (orEmptyStr st.full_name),
   .s (orEmptyStr st.email), .s (orEmptyStr st.birth_date),
   .s (orEmptyStr st.hometown), .n (orZeroNum st.math_score),
   .n (orZeroNum st.literature_score), .n (orZeroNum st.english_score),
   .n (orZeroNum st.average_score)]

/-- One emitted data row of `generateCSV`: every cell quoted, joined by
commas, newline-terminated. -/
def exportRowLine (st : Student) : String :=
  joinSep "," ((exportRowCells st).map (fun c => quoteCell (cellToString c))) ++ "\n"

/-- The concatenation of all data rows of `generateCSV`. -/
def exportRowsText : List Student → String
  | [] => ""
  | st :: rest => exportRowLine st ++ exportRowsText rest

/-- `ImportExportManager.generateCSV` (lines 1561-1595): BOM, quoted
header row, then one quoted row per record (the surrounding `Blob` is
transparent to the text). -/
def generateCSV (students : List Student) : String :=
  "\uFEFF" ++ joinSep "," (exportHeaders.map quoteCell) ++ "\n" ++ exportRowsText students

-- =====================================================
-- CSV document parser (ImportExportManager.parseCSV, lines 1270-1419)
-- =====================================================

/-- `String.prototype.split(sep)` for a one-character separator. -/
def splitOnChar (sep : Char) : List Char → List (List Char)
  | [] => [[]]
  | c :: cs =>
    let r := splitOnChar sep cs
    if c = sep then [] :: r
    else
      match r with
      | [] => [[c]]
      | h :: t => (c :: h) :: t

/-- `content.replace(/^﻿/, '')`: strip one leading byte-order mark. -/
def stripBOM : List Char → List Char
  | [] => []
  | c :: t => if c = '﻿' then t else c :: t

/-- The non-empty trimmed lines of the import text, after stripping one
leading BOM (`content.replace(/^﻿/, '').split('\n').map(trim).filter`). -/
def csvLines (content : String) : List String :=
  (((splitOnChar '\n' (stripBOM content.toList)).map trimChars).filter
    (fun l => !l.isEmpty)).map String.mk

/-- A row-level or document-level import error: `{row, message}`. -/
structure RowError where
  row : Nat
  message : String
deriving DecidableEq

/-- The required header subset of `parseCSV`. -/
def requiredHeaders : List String := ["Mã số sinh viên", "Họ tên", "Email"]

/-- `requiredHeaders.filter(h => !headers.includes(h))`. -/
def missingRequired (headers : List String) : List String :=
  requiredHeaders.filter (fun h => !headers.contains h)

/-- The candidate student object built from one CSV data row (the plain JS
object `parseCSV` assembles field by field; `average_score` is the
`toFixed(2)` string the code stores). -/
structure ParsedStudent where
  student_id : Option String := none
  first_name : Option String := none
  last_name : Option String := none
  full_name : Option String := none
  email : Option String := none
  birth_date : Option String := none
  hometown : Option String := none
  math_score : Option Rat := none
  literature_score : Option Rat := none
  english_score : Option Rat := none
  average_score : Option String := none
deriving DecidableEq

/-- Gregorian leap-year rule. -/
def isLeapYear (y : Nat) : Bool :=
  (y % 4 = 0 && y % 100 ≠ 0) || y % 400 = 0

/-- Days in a month. -/
def daysInMonth (y m : Nat) : Nat :=
  if m = 2 then (if isLeapYear y then 29 else 28)
  else if m = 4 ∨ m = 6 ∨ m = 9 ∨ m = 11 then 30
  else 31

/-- Decimal digit test. -/
def isDigitChar (c : Char) : Bool := '0' ≤ c && c ≤ '9'

/-- Numeric value of a digit character. -/
def charDigit (c : Char) : Nat := c.toNat - 48

/-- `ImportExportManager.isValidDate` (lines 1498-1513): empty accepted;
otherwise the `\d{4}-\d{2}-\d{2}` shape whose components form a real
calendar date.  (The `new Date` round-check the code performs agrees with
calendar validity in any non-negative UTC offset, which is where this app
runs; in a negative offset it would reject every date.) -/
def isValidDate (s : String) : Bool :=
  if s.isEmpty then true
  else
    match s.toList with
    | [y1, y2, y3, y4, '-', m1, m2, '-', d1, d2] =>
      if [y1, y2, y3, y4, m1, m2, d1, d2].all isDigitChar then
        let y := ((charDigit y1 * 10 + charDigit y2) * 10 + charDigit y3) * 10 + charDigit y4
        let m := charDigit m1 * 10 + charDigit m2
        let d := charDigit d1 * 10 + charDigit d2
        1 ≤ m && m ≤ 12 && 1 ≤ d && d ≤ daysInMonth y m
      else false
    | _ => false

/-- `value.trim().split(' ')` of the name cell. -/
def nameParts (value : String) : List String :=
  (splitOnChar ' ' (jsTrim value).toList).map String.mk

/-- The first name extracted from the name cell: all tokens but the last,
joined, when there are at least two; the whole value otherwise. -/
def nameSplitFirst (value : String) : String :=
  if (nameParts value).length ≥ 2 then joinSep " " (nameParts value).dropLast
  else value

/-- The last name extracted from the name cell: the final token when there
are at least two, `''` otherwise. -/
def nameSplitLast (value : String) : String :=
  if (nameParts value).length ≥ 2 then orEmptyStr (nameParts value).getLast?
  else ""

/-- The `'Họ tên'` case of the header switch: split the trimmed full name
on single spaces; with at least two tokens the last token is the last name
and the rest joined is the first name, otherwise the whole value is the
first name and the last name is empty. -/
def applyNameCell (st : ParsedStudent) (value : String) : ParsedStudent :=
  { st with first_name := some (nameSplitFirst value),
            last_name := some (nameSplitLast value),
            full_name := some value }

/-- One arm of a score case of the header switch: `parseFloat`, `NaN` or
out-of-range `[0,10]` throws. -/
def parseScoreCell (label value : String) : Except String Rat :=
  match jsParseFloat value with
  | none => .error (label ++ " không hợp lệ: " ++ value)
  | some q =>
    if q < 0 ∨ q > 10 then .error (label ++ " không hợp lệ: " ++ value)
    else .ok q

/-- The `switch (header)` body of `parseCSV` (lines 1335-1384) applied to
one already-trimmed cell value; `Except.error` models a thrown `Error`. -/
def applyCell (st : ParsedStudent) (header value : String) : Except String ParsedStudent :=
  if header = "Mã số sinh viên" then .ok { st with student_id := some value }
  else if header = "Họ tên" then .ok (applyNameCell st value)
  else if header = "Email" then .ok { st with email := some value }
  else if header = "Ngày sinh" then
    if !value.isEmpty && !isValidDate value then
      .error ("Ngày sinh không hợp lệ: " ++ value ++ ". Định dạng: YYYY-MM-DD")
    else .ok { st with birth_date := some value }
  else if header = "Quê quán" then .ok { st with hometown := some value }
  else if header = "Điểm Toán" then
    (parseScoreCell "Điểm Toán" value).map (fun q => { st with math_score := some q })
  else if header = "Điểm Văn" then
    (parseScoreCell "Điểm Văn" value).map (fun q => { st with literature_score := some q })
  else if header = "Điểm Anh" then
    (parseScoreCell "Điểm Anh" value).map (fun q => { st with english_score := some q })
  else .ok st

/-- The `headers.forEach` loop of `parseCSV`: apply each header's switch
case to its (trimmed) cell, stopping at the first thrown error. -/
def applyCells (st : ParsedStudent) : List (String × String) → Except String ParsedStudent
  | [] => .ok st
  | (h, v) :: rest =>
    match applyCell st h (jsTrim v) with
    | .error m => .error m
    | .ok st2 => applyCells st2 rest

/-- Lines 1401-1409 of `parseCSV`: default the optional scores to 0 and
store the three-subject mean as a `toFixed(2)` string. -/
def finalizeRow (st : ParsedStudent) : ParsedStudent :=
  let m := orZeroNum st.math_score
  let l := orZeroNum st.literature_score
  let e := orZeroNum st.english_score
  { st with math_score := some m, literature_score := some l,
            english_score := some e,
            average_score := some (jsToFixed2 ((m + l + e) / 3)) }

/-- Build one student from a data row (the `try` body of `parseCSV`,
lines 1330-1411): run the header switch over the cells, then the required
field checks, then defaults and the import-preview average. -/
def buildRow (headers vals : List String) : Except String ParsedStudent :=
  match applyCells {} (headers.zip vals) with
  | .error m => .error ("Lỗi xử lý dữ liệu: " ++ m)
  | .ok st =>
    if !truthyS st.student_id then .error "Mã số sinh viên không được để trống"
    else if !truthyS st.first_name then .error "Họ tên không được để trống"
    else if !(truthyS st.email && jsIncludes (orEmptyStr st.email) "@") then
      .error "Email không hợp lệ"
    else .ok (finalizeRow st)

/-- A cell "looks like an instructional placeholder": it contains both a
`'('` and a `')'` (the skip test of lines 1313-1315). -/
def hasParens (v : String) : Bool :=
  jsIncludes v "(" && jsIncludes v ")"

/-- The column-count error message. -/
def colCountMsg (need got : Nat) : String :=
  "Số cột không khớp. Cần " ++ toString need ++ " cột, có " ++ toString got ++ " cột"

/-- The data-row loop of `parseCSV` (lines 1308-1416) over `(rowNum, line)`
pairs: parenthesised rows and all-empty rows are skipped silently,
column-count mismatches and build failures append row errors, successful
builds append students; the loop never aborts. -/
def processRows (headers : List String) : List (Nat × String) → List ParsedStudent × List RowError
  | [] => ([], [])
  | (rowNum, line) :: rest =>
    let vals := parseCSVRow line
    if vals.any hasParens then processRows headers rest
    else if vals.all (fun v => (jsTrim v).isEmpty) then processRows headers rest
    else if vals.length ≠ headers.length then
      let r := processRows headers rest
      (r.1, ⟨rowNum, colCountMsg headers.length vals.length⟩ :: r.2)
    else
      match buildRow headers vals with
      | .ok st => let r := processRows headers rest; (st :: r.1, r.2)
      | .error m => let r := processRows headers rest; (r.1, ⟨rowNum, m⟩ :: r.2)

/-- Pair each line with its 1-based row number in the document, starting
at `k` (`parseCSV` numbers data rows `i + 1` for `i ≥ 1`, i.e. from 2). -/
def numberFrom (k : Nat) : List String → List (Nat × String)
  | [] => []
  | l :: ls => (k, l) :: numberFrom (k + 1) ls

/-- The too-few-lines document error message. -/
def minLinesMsg : String := "File CSV phải có ít nhất 2 dòng (header + data)"

/-- `ImportExportManager.parseCSV` (src/unnamed/part_001, lines 1270-1419):
empty-content guard, BOM strip, line split, two-line minimum, required
header check (fatal), then the data-row loop.  Returns
`(students, errors)`. -/
def parseCSV (content : String) : List ParsedStudent × List RowError :=
  if content.isEmpty then ([], [⟨1, "File content is empty or invalid"⟩])
  else
    let lines := csvLines content
    if lines.length < 2 then ([], [⟨1, minLinesMsg⟩])
    else
      let headers := (parseCSVRow (lines.headD "")).map jsTrim
      let missing := missingRequired headers
      if missing.isEmpty then processRows headers (numberFrom 2 (lines.drop 1))
      else ([], [⟨1, "Thiếu các cột bắt buộc: " ++ joinSep ", " missing⟩])

-- =====================================================
-- Import reconciliation
-- (ImportExportManager.processStudentsThroughAPI, lines 1178-1268)
-- =====================================================

/-- `getImportOptions()` (lines 1825-1830): checkbox state, defaulting to
true. -/
structure ImportOptions where
  updateExisting : Bool := true
  skipErrors : Bool := true
deriving DecidableEq

/-- A deterministic model of the remote API as observed by one import run:
`search` returns the item page for a student-code query (`none` models a
thrown search error, which the code treats as "not found"); `create` and
`update` return `none` on success or `some message` for a thrown error
(the `error.message` the code feeds to `formatApiError`). -/
structure ApiModel where
  search : Option String → Option (List Student)
  create : ParsedStudent → Option String
  update : Option Nat → ParsedStudent → Option String

/-- The aggregate import result (counts plus ordered row errors; the
human-readable `message` field is derived from the counts and not
modelled separately). -/
structure ImportResult where
  imported : Nat
  updated : Nat
  skipped : Nat
  errors : List RowError
deriving DecidableEq

/-- The `for (const [index, student] of students.entries())` loop of
`processStudentsThroughAPI`: per row, search by student code (a failed
search means "does not exist"), then update / skip / create according to
`options.updateExisting`; any create/update failure is recorded as
`{row: index + 2, message}` and the loop continues. -/
def processGo (api : ApiModel) (options : ImportOptions) : Nat → List ParsedStudent → ImportResult
  | _, [] => ⟨0, 0, 0, []⟩
  | index, student :: rest =>
    let existing :=
      match api.search student.student_id with
      | none => none
      | some items => items.find? (fun (s : Student) => s.student_id == student.student_id)
    match existing with
    | some ex =>
      if options.updateExisting then
        match api.update ex.id student with
        | none =>
          let r := processGo api options (index + 1) rest
          { r with updated := r.updated + 1 }
        | some msg =>
          let r := processGo api options (index + 1) rest
          { r with errors :=
              ⟨index + 2, "Lỗi cập nhật " ++ orEmptyStr student.student_id ++ ": " ++ msg⟩ :: r.errors }
      else
        let r := processGo api options (index + 1) rest
        { r with skipped := r.skipped + 1 }
    | none =>
      match api.create student with
      | none =>
        let r := processGo api options (index + 1) rest
        { r with imported := r.imported + 1 }
      | some msg =>
        let r := processGo api options (index + 1) rest
        { r with errors :=
            ⟨index + 2, "Lỗi tạo mới " ++ orEmptyStr student.student_id ++ ": " ++ msg⟩ :: r.errors }

/-- `ImportExportManager.processStudentsThroughAPI` (lines 1178-1268). -/
def processStudentsThroughAPI (api : ApiModel) (options : ImportOptions)
    (students : List ParsedStudent) : ImportResult :=
  processGo api options 0 students

/-- The outcome of one iteration of the `processStudentsThroughAPI` loop
on one row: `none` when the row is imported, updated or skipped cleanly,
`some message` when its update or create call throws (the message the
loop records). -/
def rowOutcome (api : ApiModel) (options : ImportOptions)
    (student : ParsedStudent) : Option String :=
  let existing :=
    match api.search student.student_id with
    | none => none
    | some items => items.find? (fun (s : Student) => s.student_id == student.student_id)
  match existing with
  | some ex =>
    if options.updateExisting then
      match api.update ex.id student with
      | none => none
      | some msg => some ("Lỗi cập nhật " ++ orEmptyStr student.student_id ++ ": " ++ msg)
    else none
  | none =>
    match api.create student with
    | none => none
    | some msg => some ("Lỗi tạo mới " ++ orEmptyStr student.student_id ++ ": " ++ msg)

/-- A concrete valid student record, used by the witness theorems. -/
def demoStudent : Student :=
  { id := some 1, student_id := some "SV001", first_name := some "Nguyễn Văn",
    last_name := some "A", full_name := some "Nguyễn Văn A",
    email := some "nva@example.com", birth_date := some "2000-01-15",
    hometown := some "Hà Nội", math_score := some (mkRat 17 2),
    literature_score := some (mkRat 15 2), english_score := some (mkRat 9 1),
    average_score := some (mkRat 25 3) }

/-- `demoStudent` with the math score absent: its math sort value is the
empty string. -/
def c4A : Student := { demoStudent with math_score := none }

/-- `demoStudent` with a math score of `0`: ties with `c4A` under the
comparator although their extracted sort values differ. -/
def c4B : Student := { demoStudent with math_score := some 0 }

/-- The import document of the C9 counterexample: a required-only header
line, an instructional row (silently skipped by the parser), and one valid
data row sitting on source line 3. -/
def c9Doc : String :=
  "Mã số sinh viên,Họ tên,Email\n(Bắt buộc),(Bắt buộc),(Bắt buộc)\nSV001,Nguyễn Văn A,nva@example.com"

/-- An API model whose search finds nothing and whose create always
fails. -/
def c9Api : ApiModel :=
  { search := fun _ => some []
    create := fun _ => some "Network Error"
    update := fun _ _ => none }

/-- The stringified export row of a record (the cells `generateCSV` writes,
before quoting). -/
def cellStrings (st : Student) : List String :=
  (exportRowCells st).map cellToString

/-- A cell string that passes unchanged through the line splitting, the
tokenizer's boundary trim, and the instruction-row filter: no newline, no
boundary whitespace, not both parentheses. -/
def cleanCellStr (s : String) : Bool :=
  !(s.toList.contains '\n') && (jsTrim s == s) && !(hasParens s)

/-- A score-like number as the parser re-accepts it: in `[0,10]` with a
finite decimal representation (every JS number has one). -/
def scoreOk (q : Rat) : Bool :=
  decimalDen q.den && decide (0 ≤ q) && decide (q ≤ 10)

/-- The record-level conditions under which export-then-import
reconstructs a record: every condition below is forced by a parser
behaviour (silent row skips, boundary trimming, required-field checks,
date/score validation, absent-field defaulting). -/
def exportable (r : Student) : Bool :=
  cleanCellStr (orEmptyStr r.student_id) && !(orEmptyStr r.student_id).isEmpty &&
  cleanCellStr (orEmptyStr r.full_name) && !(orEmptyStr r.full_name).isEmpty &&
  cleanCellStr (orEmptyStr r.email) && jsIncludes (orEmptyStr r.email) "@" &&
  cleanCellStr (orEmptyStr r.birth_date) && isValidDate (orEmptyStr r.birth_date) &&
  cleanCellStr (orEmptyStr r.hometown) &&
  scoreOk (orZeroNum r.math_score) && scoreOk (orZeroNum r.literature_score) &&
  scoreOk (orZeroNum r.english_score) &&
  decimalDen (orZeroNum r.average_score).den && decide (0 ≤ orZeroNum r.average_score)

/-- The parsed image of an exported record: what `parseCSV` reconstructs
from the row `generateCSV` writes for `r` — raw string fields preserved
(absent ones as `''`), scores preserved (absent ones as `0`), the name
re-split from the full name, and the import-preview average attached. -/
def roundTripView (r : Student) : ParsedStudent :=
  { student_id := some (orEmptyStr r.student_id)
    first_name := some (nameSplitFirst (orEmptyStr r.full_name))
    last_name := some (nameSplitLast (orEmptyStr r.full_name))
    full_name := some (orEmptyStr r.full_name)
    email := some (orEmptyStr r.email)
    birth_date := some (orEmptyStr r.birth_date)
    hometown := some (orEmptyStr r.hometown)
    math_score := some (orZeroNum r.math_score)
    literature_score := some (orZeroNum r.literature_score)
    english_score := some (orZeroNum r.english_score)
    average_score := some (jsToFixed2 ((orZeroNum r.math_score +
      orZeroNum r.literature_score + orZeroNum r.english_score) / 3)) }

-- =====================================================
-- Theorems
-- =====================================================

/-- The character form of the quoted comma-joined row `generateCSV`
emits. -/
def joinQuotedChars : List (List Char) → List Char
  | [] => []
  | [s] => '"' :: escChars s ++ ['"']
  | s :: rest => '"' :: escChars s ++ '"' :: ',' :: joinQuotedChars rest

/-- The big-endian digit values rendered by `natCharsOrZero`. -/
def intDigitsBE (n : Nat) : List Nat :=
  if n = 0 then [0] else (natDigits n).reverse

/-- The unquoted header line string of `generateCSV`. -/
def exportHeaderStr : String := joinSep "," (exportHeaders.map quoteCell)

/-- The data-row string of one record (without the trailing newline). -/
def exportRowStr (st : Student) : String :=
  joinSep "," ((cellStrings st).map quoteCell)

/-- A concrete record every cell of which survives the round trip. -/
def c2Demo : Student :=
  { id := some 7, student_id := some "SV007", first_name := some "Trần",
    last_name := some "B", full_name := some "Trần B",
    email := some "tb@example.com", birth_date := some "2001-02-20",
    hometown := some "Huế", math_score := some (mkRat 17 2),
    literature_score := some (mkRat 15 2), english_score := some (mkRat 9 1),
    average_score := some (mkRat 25 4) }

/-- `c2Demo` with a hometown that holds both parentheses, the shape the
instruction-row filter of `parseCSV` silently drops. -/
def c2Bad : Student := { c2Demo with hometown := some "Hà Nội (city)" }

/-- C1 (counterexample): on an empty record set with requested page 2 and
page size 10, the pagination step yields totalPages = 0 (not 1) and leaves
the page at 2 (not 1). -/
theorem c1_empty_pagination_contra :
    paginationStep ([] : List Student) 2 10 = ⟨[], 0, 2⟩ ∧
    (0 : Nat) ≠ 1 ∧ (2 : Int) ≠ 1 :=
  ⟨by decide, by decide, by decide⟩

/-- C1 (amended): on an empty record set the pagination step returns an
empty slice, totalPages = 0, and the requested page unchanged (raised to 1
only when it was below 1). -/
theorem c1_empty_pagination (p : Int) (s : Nat) (hs : 1 ≤ s) :
    paginationStep ([] : List Student) p s = ⟨[], 0, if p < 1 then 1 else p⟩ := by
  have h0 : (0 + s - 1) / s = 0 := Nat.div_eq_of_lt (by omega)
  simp only [paginationStep, List.length_nil, h0]
  have : ¬ ((p > ((0 : Nat) : Int)) ∧ (0 : Nat) > 0) := by simp
  simp only [this, if_false]
  by_cases hp : p < 1 <;> simp [hp]

/-- C1 (witness for the amended theorem). -/
theorem c1_empty_pagination_w :
    paginationStep ([] : List Student) 2 10 = ⟨[], 0, 2⟩ := by
  have h := c1_empty_pagination 2 10 (by decide)
  simpa using h

/-- C3: calculateGrade uses exact inclusive thresholds evaluated highest
first: the six boundary samples of the claim, plus the general
characterisation for every defined average. -/
theorem c3_grade_thresholds :
    calculateGrade (some (mkRat 17 2)) = "A" ∧
    calculateGrade (some (mkRat 84999 10000)) = "B" ∧
    calculateGrade (some 7) = "B" ∧
    calculateGrade (some (mkRat 11 2)) = "C" ∧
    calculateGrade (some 4) = "D" ∧
    calculateGrade (some (mkRat 3999 1000)) = "F" ∧
    ∀ q : Rat, calculateGrade (some q) =
      if mkRat 17 2 ≤ q then "A"
      else if 7 ≤ q then "B"
      else if mkRat 11 2 ≤ q then "C"
      else if 4 ≤ q then "D"
      else "F" := by
  refine ⟨by decide, by decide, by decide, by decide, by decide, by decide, fun q => ?_⟩
  simp [calculateGrade, GRADE_CONFIG, gradeScan]

/-- C5: when each of search, hometown and grade is absent or empty, the
filtering step of applyLocalFilters returns the record list unchanged. -/
theorem c5_filter_identity (f : Filters) (R : List Student)
    (hs : truthyS f.search = false) (hh : truthyS f.hometown = false)
    (hg : truthyS f.grade = false) :
    filterStudents f R = R := by
  simp [filterStudents, hs, hh, hg]

/-- C5 (witness). -/
theorem c5_filter_identity_w :
    filterStudents ⟨some "", none, some ""⟩ [demoStudent] = [demoStudent] :=
  c5_filter_identity _ _ (by decide) (by decide) (by decide)

/-- C7: the tokenizer maps the quoted field with embedded comma and
escaped quotes to the single expected field value. -/
theorem c7_quoted_field :
    parseCSVRow "\"Nguyễn, \"\"Văn\"\" A\"" = ["Nguyễn, \"Văn\" A"] := by decide

/-- C10: a data row any of whose cells contains both a left and a right
parenthesis is dropped by the data-row loop with no error, no count, and
no effect on later rows. -/
theorem c10_paren_row_skip (headers : List String) (rowNum : Nat)
    (line : String) (rest : List (Nat × String))
    (h : (parseCSVRow line).any hasParens = true) :
    processRows headers ((rowNum, line) :: rest) = processRows headers rest := by
  simp [processRows, h]

/-- C10 (witness): a row whose hometown cell is ordinary data containing
parentheses is silently dropped. -/
theorem c10_paren_row_skip_w :
    processRows exportHeaders
      [(2, "\"SV001\",\"Nguyễn Văn A\",\"nva@example.com\",\"2000-01-15\",\"Hà Nội (city)\",\"8.5\",\"7.5\",\"9\",\"8.33\"")] =
    processRows exportHeaders [] :=
  c10_paren_row_skip _ _ _ _ (by decide)

/-- C8: a document with at least two non-empty lines whose header misses a
required column fails fast — no parsed rows, exactly the one
document-level error, no data row processed. -/
theorem c8_missing_header_fatal (content : String)
    (h0 : content.isEmpty = false)
    (hlen : 2 ≤ (csvLines content).length)
    (hmiss : missingRequired ((parseCSVRow ((csvLines content).headD "")).map jsTrim) ≠ []) :
    parseCSV content =
      ([], [⟨1, "Thiếu các cột bắt buộc: " ++
        joinSep ", " (missingRequired ((parseCSVRow ((csvLines content).headD "")).map jsTrim))⟩]) := by
  unfold parseCSV
  rw [if_neg (by simp [h0])]
  dsimp only
  rw [if_neg (by omega), if_neg (by simpa using hmiss)]

/-- C8 (witness). -/
theorem c8_missing_header_fatal_w :
    parseCSV "Họ tên,Email\nabc,x@y" =
      ([], [⟨1, "Thiếu các cột bắt buộc: Mã số sinh viên"⟩]) := by
  have h := c8_missing_header_fatal "Họ tên,Email\nabc,x@y" (by decide) (by decide) (by decide)
  rw [h]; decide

theorem filter_stableInsert_pos (le : α → α → Bool) (p : α → Bool) (x : α) (l : List α)
    (hpx : p x = true) (hcomp : ∀ y, p y = true → le x y = true) :
    (stableInsert le x l).filter p = x :: l.filter p := by
  induction l with
  | nil => simp [stableInsert, hpx]
  | cons y ys ih =>
    by_cases hle : le x y = true
    · simp [stableInsert, hle, hpx]
    · have hpy : p y = false := by
        cases hy : p y
        · rfl
        · exact absurd (hcomp y hy) hle
      simp [stableInsert, hle, hpy, ih]

theorem filter_stableInsert_neg (le : α → α → Bool) (p : α → Bool) (x : α) (l : List α)
    (hpx : p x = false) :
    (stableInsert le x l).filter p = l.filter p := by
  induction l with
  | nil => simp [stableInsert, hpx]
  | cons y ys ih =>
    by_cases hle : le x y = true
    · simp [stableInsert, hle, hpx]
    · simp [stableInsert, hle, List.filter_cons, ih]

theorem filter_stableSort (le : α → α → Bool) (p : α → Bool) (l : List α)
    (hcomp : ∀ x y, p x = true → p y = true → le x y = true) :
    (stableSort le l).filter p = l.filter p := by
  induction l with
  | nil => rfl
  | cons x xs ih =>
    cases hx : p x
    · rw [stableSort, filter_stableInsert_neg le p x _ hx, ih]
      simp [hx]
    · rw [stableSort, filter_stableInsert_pos le p x _ hx (fun y hy => hcomp x y hx hy), ih]
      simp [hx]

theorem jsLt_irrefl (v : SortVal) : jsLt v v = false := by
  cases v with
  | str s => simp [jsLt]
  | num q => simp [jsLt]

theorem cmpVals_self (v : SortVal) : cmpVals v v = 0 := by
  simp [cmpVals, jsLt_irrefl]

theorem compareStudents_key_eq (spec : SortSpec) (a b : Student)
    (h : sortKeyVal spec.sortBy a = sortKeyVal spec.sortBy b) :
    compareStudents spec a b = 0 := by
  unfold compareStudents
  rw [h, cmpVals_self]
  cases spec.order <;> simp

theorem sublist_stableInsert (le : α → α → Bool) (x : α) (l : List α) :
    List.Sublist l (stableInsert le x l) := by
  induction l with
  | nil => simp [stableInsert]
  | cons y ys ih =>
    by_cases h : le x y = true
    · rw [stableInsert, if_pos h]
      exact (List.Sublist.refl _).cons x
    · rw [stableInsert, if_neg h]
      exact ih.cons₂ y

theorem mem_stableInsert (le : α → α → Bool) (x y : α) (l : List α) (h : y ∈ l) :
    y ∈ stableInsert le x l := by
  induction l with
  | nil => cases h
  | cons z zs ih =>
    by_cases hz : le x z = true
    · rw [stableInsert, if_pos hz]
      exact List.mem_cons_of_mem x h
    · rw [stableInsert, if_neg hz]
      rcases List.mem_cons.mp h with rfl | h'
      · exact List.mem_cons_self y _
      · exact List.mem_cons_of_mem z (ih h')

theorem mem_stableSort (le : α → α → Bool) (y : α) (l : List α) (h : y ∈ l) :
    y ∈ stableSort le l := by
  induction l with
  | nil => cases h
  | cons z zs ih =>
    rw [stableSort]
    rcases List.mem_cons.mp h with rfl | h'
    · clear h
      induction stableSort le zs with
      | nil => simp [stableInsert]
      | cons w ws ihw =>
        by_cases hw : le y w = true
        · rw [stableInsert, if_pos hw]
          exact List.mem_cons_self y _
        · rw [stableInsert, if_neg hw]
          exact List.mem_cons_of_mem w ihw
    · exact mem_stableInsert le z y _ (ih h')

/-- The inserted element lands before every element of the tail it is
`le`-related to — the key step of insertion-sort stability. -/
theorem stableInsert_pair (le : α → α → Bool) (x y : α) (l : List α)
    (hy : y ∈ l) (hle : le x y = true) :
    List.Sublist [x, y] (stableInsert le x l) := by
  induction l with
  | nil => cases hy
  | cons z zs ih =>
    by_cases h : le x z = true
    · rw [stableInsert, if_pos h]
      exact List.Sublist.cons₂ x (List.singleton_sublist.mpr hy)
    · rw [stableInsert, if_neg h]
      rcases List.mem_cons.mp hy with rfl | hy'
      · exact absurd hle h
      · exact (ih hy').cons z

/-- General stability of the insertion sort: any ordered pair of the input
related by `le` keeps its order in the output. -/
theorem stableSort_stable_pair (le : α → α → Bool) (x y : α) (l : List α)
    (hab : List.Sublist [x, y] l) (hle : le x y = true) :
    List.Sublist [x, y] (stableSort le l) := by
  induction l with
  | nil => exact absurd hab (by simp)
  | cons z zs ih =>
    rw [stableSort]
    cases hab with
    | cons _ h' => exact (ih h').trans (sublist_stableInsert le z _)
    | cons₂ _ h' =>
      exact stableInsert_pair le x y _
        (mem_stableSort le y zs (List.singleton_sublist.mp h')) hle

/-- C4: sortStudents is stable under the source comparator itself, for
every sort spec and both directions: whenever record `a` precedes record
`b` in the input and the comparator ranks them equal — including ties
between records with different extracted sort values, such as an absent
score (compared as `''`) against a score of `0` — `a` still precedes `b`
in the sorted output.  `desc` is exactly the negation of the ascending
comparison, so reversal never reorders ties. -/
theorem c4_sort_stable (spec : SortSpec) (l : List Student) (a b : Student)
    (hab : List.Sublist [a, b] l) (htie : compareStudents spec a b = 0) :
    List.Sublist [a, b] (sortStudents spec l) ∧
    compareStudents ⟨spec.sortBy, .desc⟩ a b =
      -compareStudents ⟨spec.sortBy, .asc⟩ a b := by
  constructor
  · apply stableSort_stable_pair _ a b l hab
    show decide (compareStudents spec a b ≤ 0) = true
    rw [htie]
    decide
  · unfold compareStudents
    simp

/-- C4 (witness): a reachable cross-value tie — an absent math score
against a math score of `0` — keeps its input order when sorting by math
score, and desc negates the comparison there. -/
theorem c4_sort_stable_w :
    List.Sublist [c4A, c4B] [c4A, c4B] ∧
    compareStudents ⟨.math_score, .asc⟩ c4A c4B = 0 ∧
    (List.Sublist [c4A, c4B] (sortStudents ⟨.math_score, .asc⟩ [c4A, c4B]) ∧
     compareStudents ⟨.math_score, .desc⟩ c4A c4B =
       -compareStudents ⟨.math_score, .asc⟩ c4A c4B) :=
  ⟨List.Sublist.refl _, by with_unfolding_all decide,
   c4_sort_stable ⟨.math_score, .asc⟩ [c4A, c4B] c4A c4B (List.Sublist.refl _)
     (by with_unfolding_all decide)⟩

theorem processGo_total (api : ApiModel) (options : ImportOptions)
    (k : Nat) (students : List ParsedStudent) :
    (processGo api options k students).imported +
      (processGo api options k students).updated +
      (processGo api options k students).skipped +
      (processGo api options k students).errors.length = students.length ∧
    List.Sublist ((processGo api options k students).errors.map RowError.row)
      (List.range' (k + 2) students.length) := by
  induction students generalizing k with
  | nil => simp [processGo]
  | cons st rest ih =>
    have ih1 := (ih (k + 1)).1
    have ih2 : List.Sublist
        ((processGo api options (k + 1) rest).errors.map RowError.row)
        (List.range' (k + 3) rest.length) := (ih (k + 1)).2
    simp only [List.length_cons, List.range'_succ]
    have hrc : (k + 2) + 1 = k + 3 := rfl
    unfold processGo
    cases hs : api.search st.student_id with
    | none =>
      simp only [hs]
      cases hc : api.create st with
      | none =>
        exact ⟨by simp; omega, by rw [hrc]; exact ih2.cons _⟩
      | some msg =>
        refine ⟨by simp; omega, ?_⟩
        rw [hrc]; simpa using List.Sublist.cons₂ (k + 2) ih2
    | some items =>
      simp only [hs]
      cases hf : items.find? (fun (s : Student) => s.student_id == st.student_id) with
      | none =>
        simp only [hf]
        cases hc : api.create st with
        | none =>
          exact ⟨by simp; omega, by rw [hrc]; exact ih2.cons _⟩
        | some msg =>
          refine ⟨by simp; omega, ?_⟩
          rw [hrc]; simpa using List.Sublist.cons₂ (k + 2) ih2
      | some ex =>
        simp only [hf]
        cases hu : options.updateExisting with
        | true =>
          rw [if_pos rfl]
          cases hup : api.update ex.id st with
          | none => exact ⟨by simp; omega, by rw [hrc]; exact ih2.cons _⟩
          | some msg =>
            refine ⟨by simp; omega, ?_⟩
            rw [hrc]; simpa using List.Sublist.cons₂ (k + 2) ih2
        | false =>
          rw [if_neg (by simp)]
          exact ⟨by simp; omega, by rw [hrc]; exact ih2.cons _⟩

theorem processGo_errors (api : ApiModel) (options : ImportOptions)
    (k : Nat) (students : List ParsedStudent) :
    (processGo api options k students).errors =
      (List.enumFrom (k + 2) students).filterMap
        (fun p => (rowOutcome api options p.2).map (fun m => (⟨p.1, m⟩ : RowError))) := by
  induction students generalizing k with
  | nil => rfl
  | cons st rest ih =>
    have ihr := ih (k + 1)
    unfold processGo
    rw [show List.enumFrom (k + 2) (st :: rest) =
        (k + 2, st) :: List.enumFrom (k + 3) rest from rfl]
    rw [List.filterMap_cons]
    cases hs : api.search st.student_id with
    | none =>
      simp only [hs]
      cases hc : api.create st with
      | none =>
        have hro : rowOutcome api options st = none := by
          simp [rowOutcome, hs, hc]
        simp only [hro, Option.map_none']
        simpa using ihr
      | some msg =>
        have hro : rowOutcome api options st =
            some ("Lỗi tạo mới " ++ orEmptyStr st.student_id ++ ": " ++ msg) := by
          simp [rowOutcome, hs, hc]
        simp only [hro, Option.map_some']
        simpa using ihr
    | some items =>
      simp only [hs]
      cases hf : items.find? (fun (s : Student) => s.student_id == st.student_id) with
      | none =>
        simp only [hf]
        cases hc : api.create st with
        | none =>
          have hro : rowOutcome api options st = none := by
            simp [rowOutcome, hs, hf, hc]
          simp only [hro, Option.map_none']
          simpa using ihr
        | some msg =>
          have hro : rowOutcome api options st =
              some ("Lỗi tạo mới " ++ orEmptyStr st.student_id ++ ": " ++ msg) := by
            simp [rowOutcome, hs, hf, hc]
          simp only [hro, Option.map_some']
          simpa using ihr
      | some ex =>
        simp only [hf]
        cases hu : options.updateExisting with
        | true =>
          rw [if_pos rfl]
          cases hup : api.update ex.id st with
          | none =>
            have hro : rowOutcome api options st = none := by
              simp [rowOutcome, hs, hf, hu, hup]
            simp only [hro, Option.map_none']
            simpa using ihr
          | some msg =>
            have hro : rowOutcome api options st =
                some ("Lỗi cập nhật " ++ orEmptyStr st.student_id ++ ": " ++ msg) := by
              simp [rowOutcome, hs, hf, hu, hup]
            simp only [hro, Option.map_some']
            simpa using ihr
        | false =>
          rw [if_neg (by simp)]
          have hro : rowOutcome api options st = none := by
            simp [rowOutcome, hs, hf, hu]
          simp only [hro, Option.map_none']
          simpa using ihr

set_option maxRecDepth 40000 in
theorem c9_line_number_contra :
    csvLines c9Doc =
      ["Mã số sinh viên,Họ tên,Email", "(Bắt buộc),(Bắt buộc),(Bắt buộc)",
       "SV001,Nguyễn Văn A,nva@example.com"] ∧
    (parseCSVRow "(Bắt buộc),(Bắt buộc),(Bắt buộc)").any hasParens = true ∧
    (parseCSV c9Doc).2 = [] ∧
    (parseCSV c9Doc).1.map (fun p => p.student_id) = [some "SV001"] ∧
    ((processStudentsThroughAPI c9Api ⟨true, true⟩ (parseCSV c9Doc).1).errors.map
      (fun e => e.row)) = [2] ∧
    ((processStudentsThroughAPI c9Api ⟨true, true⟩ (parseCSV c9Doc).1).errors.map
      (fun e => e.message)) = ["Lỗi tạo mới SV001: Network Error"] ∧
    (2 : Nat) ≠ 3 := by
  refine ⟨?_, by decide, ?_, ?_, ?_, ?_, by decide⟩
  · with_unfolding_all decide
  · with_unfolding_all decide
  · with_unfolding_all decide
  · with_unfolding_all decide
  · with_unfolding_all decide

/-- C9 (amended): the batch loop processes every row — the four outcome
counts always total the batch size — and the recorded errors are exactly
the rows whose create/update call fails, in batch order, each tagged with
row number `2 + its index in the parsed batch` (which equals the source
line only when no preceding document line was skipped or rejected) and
the failure's message. -/
theorem c9_batch_tolerant (api : ApiModel) (options : ImportOptions)
    (students : List ParsedStudent) :
    (processStudentsThroughAPI api options students).imported +
      (processStudentsThroughAPI api options students).updated +
      (processStudentsThroughAPI api options students).skipped +
      (processStudentsThroughAPI api options students).errors.length = students.length ∧
    (processStudentsThroughAPI api options students).errors =
      (List.enumFrom 2 students).filterMap
        (fun p => (rowOutcome api options p.2).map (fun m => (⟨p.1, m⟩ : RowError))) :=
  ⟨(processGo_total api options 0 students).1, processGo_errors api options 0 students⟩


theorem escChars_cons (c : Char) (l : List Char) :
    escChars (c :: l) = (if c = '"' then ['"', '"'] else [c]) ++ escChars l := by
  simp [escChars]

theorem go_quote_open (l : List Char) (cur : List Char) :
    parseCSVRowGo ('"' :: l) false cur = parseCSVRowGo l true cur := by
  simp [parseCSVRowGo]

theorem go_other (c : Char) (rest : List Char) (inQ : Bool) (cur : List Char)
    (h1 : c ≠ '"') (h2 : c ≠ ',') :
    parseCSVRowGo (c :: rest) inQ cur = parseCSVRowGo rest inQ (cur ++ [c]) := by
  simp [parseCSVRowGo, h1, h2]

theorem go_other_quoted (c : Char) (rest : List Char) (cur : List Char)
    (h1 : c ≠ '"') :
    parseCSVRowGo (c :: rest) true cur = parseCSVRowGo rest true (cur ++ [c]) := by
  simp [parseCSVRowGo, h1]

/-- Scanning the escaped content of a quoted cell accumulates exactly the
original content. -/
theorem go_esc (s : List Char) (rest : List Char) (cur : List Char) :
    parseCSVRowGo (escChars s ++ rest) true cur = parseCSVRowGo rest true (cur ++ s) := by
  induction s generalizing cur with
  | nil => simp [escChars]
  | cons c cs ih =>
    rw [escChars_cons]
    by_cases hc : c = '"'
    · subst hc
      rw [if_pos rfl]
      show parseCSVRowGo ('"' :: '"' :: (escChars cs ++ rest)) true cur = _
      rw [show parseCSVRowGo ('"' :: '"' :: (escChars cs ++ rest)) true cur =
            parseCSVRowGo (escChars cs ++ rest) true (cur ++ ['"']) from rfl, ih]
      simp
    · rw [if_neg hc]
      show parseCSVRowGo (c :: (escChars cs ++ rest)) true cur = _
      rw [go_other_quoted c _ _ hc, ih]
      simp

/-- Tokenizing a row of quoted cells returns each cell's content,
boundary-trimmed. -/
theorem go_joinQuoted (cells : List (List Char)) (h : cells ≠ []) :
    parseCSVRowGo (joinQuotedChars cells) false [] =
      cells.map (fun s => String.mk (trimChars s)) := by
  induction cells with
  | nil => exact absurd rfl h
  | cons s rest ih =>
    cases rest with
    | nil =>
      show parseCSVRowGo ('"' :: (escChars s ++ ['"'])) false [] = _
      rw [go_quote_open, go_esc,
        show parseCSVRowGo ['"'] true ([] ++ s) = [String.mk (trimChars ([] ++ s))] from rfl]
      simp [List.map]
    | cons s2 rest2 =>
      show parseCSVRowGo ('"' :: (escChars s ++ '"' :: ',' :: joinQuotedChars (s2 :: rest2)))
          false [] = _
      rw [go_quote_open, go_esc]
      rw [show parseCSVRowGo ('"' :: ',' :: joinQuotedChars (s2 :: rest2)) true ([] ++ s) =
            parseCSVRowGo (',' :: joinQuotedChars (s2 :: rest2)) false ([] ++ s) from rfl]
      rw [show parseCSVRowGo (',' :: joinQuotedChars (s2 :: rest2)) false ([] ++ s) =
            String.mk (trimChars ([] ++ s)) :: parseCSVRowGo (joinQuotedChars (s2 :: rest2)) false []
          from rfl]
      rw [ih (by simp)]
      simp [List.map]

theorem toList_append (a b : String) : (a ++ b).toList = a.toList ++ b.toList := by
  cases a; cases b; rfl

theorem toList_mk (l : List Char) : (String.mk l).toList = l := rfl

theorem quoteCell_toList (s : String) :
    (quoteCell s).toList = '"' :: (escChars s.toList ++ ['"']) := by
  simp [quoteCell, toList_append, toList_mk]

theorem joinSep_quoteCell_toList (cells : List String) :
    (joinSep "," (cells.map quoteCell)).toList =
      joinQuotedChars (cells.map String.toList) := by
  induction cells with
  | nil => rfl
  | cons x rest ih =>
    cases rest with
    | nil =>
      show (quoteCell x).toList = joinQuotedChars [x.toList]
      rw [quoteCell_toList]
      rfl
    | cons y t =>
      show (quoteCell x ++ "," ++ joinSep "," ((y :: t).map quoteCell)).toList = _
      rw [toList_append, toList_append, quoteCell_toList, ih]
      show _ = '"' :: escChars x.toList ++ '"' :: ',' :: joinQuotedChars ((y :: t).map String.toList)
      simp

/-- Tokenizing a row of quoted comma-joined cells (the exact shape
`generateCSV` emits) yields each cell's raw content trimmed at its
boundaries: escape collapsing plus boundary trimming and nothing else. -/
theorem parseCSVRow_quoted (cells : List String) (h : cells ≠ []) :
    parseCSVRow (joinSep "," (cells.map quoteCell)) = cells.map jsTrim := by
  unfold parseCSVRow
  rw [joinSep_quoteCell_toList, go_joinQuoted _ (by simpa using h)]
  simp [jsTrim]

theorem digitsLE_eq (f n : Nat) (h : n ≤ f) : digitsLE f n = Nat.digits 10 n := by
  induction f generalizing n with
  | zero =>
    have h0 : n = 0 := Nat.le_zero.mp h
    subst h0
    rw [show digitsLE 0 0 = [] from rfl, Nat.digits_zero]
  | succ f ih =>
    cases n with
    | zero => rw [show digitsLE (f + 1) 0 = [] from rfl, Nat.digits_zero]
    | succ m =>
      rw [show digitsLE (f + 1) (m + 1) = (m + 1) % 10 :: digitsLE f ((m + 1) / 10) from rfl]
      rw [Nat.digits_def' (by norm_num : (1:Nat) < 10) (Nat.succ_pos m)]
      have hlt := Nat.div_lt_self (Nat.succ_pos m) (by norm_num : 1 < 10)
      rw [ih ((m + 1) / 10) (by omega)]

theorem natDigits_eq (n : Nat) : natDigits n = Nat.digits 10 n :=
  digitsLE_eq n n le_rfl

theorem foldl_horner (l : List Nat) (a : Nat) :
    l.reverse.foldl (fun acc d => acc * 10 + d) a =
      a * 10 ^ l.length + Nat.ofDigits 10 l := by
  induction l generalizing a with
  | nil => simp
  | cons d t ih =>
    rw [List.reverse_cons, List.foldl_append]
    simp only [List.foldl_cons, List.foldl_nil]
    rw [ih, Nat.ofDigits_cons]
    simp only [List.length_cons, pow_succ]
    ring

theorem digitsToNat_rev_digits (n : Nat) :
    digitsToNat ((natDigits n).reverse) = n := by
  rw [natDigits_eq, digitsToNat, foldl_horner, Nat.ofDigits_digits]
  simp

theorem digitsToNat_pad (k : Nat) (ds : List Nat) :
    digitsToNat (List.replicate k 0 ++ ds) = digitsToNat ds := by
  induction k with
  | zero => rfl
  | succ k ih => simpa [digitsToNat, List.replicate_succ] using ih

theorem digitsLen_le (m e : Nat) (h : m < 10 ^ e) :
    (Nat.digits 10 m).length ≤ e := by
  rcases Nat.eq_zero_or_pos m with hm | hm
  · subst hm; simp
  · rw [Nat.digits_len 10 m (by norm_num) (by omega)]
    have := (Nat.lt_pow_iff_log_lt (by norm_num : 1 < 10) (by omega : m ≠ 0)).mp h
    omega

theorem multOf_unfold (p n : Nat) :
    multOf p n = if 1 < p ∧ 0 < n ∧ p ∣ n then multOf p (n / p) + 1 else 0 := by
  rw [multOf]; simp

theorem removeFac_unfold (p n : Nat) :
    removeFac p n = if 1 < p ∧ 0 < n ∧ p ∣ n then removeFac p (n / p) else n := by
  rw [removeFac]; simp

theorem pow_multOf_mul_removeFac (p : Nat) (hp : 1 < p) :
    ∀ n, p ^ multOf p n * removeFac p n = n := by
  intro n
  induction n using Nat.strong_induction_on with
  | _ n ih =>
    rw [multOf_unfold, removeFac_unfold]
    by_cases h : 1 < p ∧ 0 < n ∧ p ∣ n
    · rw [if_pos h, if_pos h]
      have hlt : n / p < n := Nat.div_lt_self h.2.1 hp
      have := ih (n / p) hlt
      rw [pow_succ]
      calc p ^ multOf p (n / p) * p * removeFac p (n / p)
          = p * (p ^ multOf p (n / p) * removeFac p (n / p)) := by ring
        _ = p * (n / p) := by rw [this]
        _ = n := Nat.mul_div_cancel' h.2.2
    · rw [if_neg h, if_neg h]
      simp

theorem not_dvd_removeFac (p : Nat) (hp : 1 < p) :
    ∀ n, 0 < n → ¬ p ∣ removeFac p n := by
  intro n
  induction n using Nat.strong_induction_on with
  | _ n ih =>
    intro hn
    rw [removeFac_unfold]
    by_cases h : 1 < p ∧ 0 < n ∧ p ∣ n
    · rw [if_pos h]
      have hlt : n / p < n := Nat.div_lt_self h.2.1 hp
      exact ih (n / p) hlt (Nat.div_pos (Nat.le_of_dvd h.2.1 h.2.2) (by omega))
    · rw [if_neg h]
      intro hd
      exact h ⟨hp, hn, hd⟩

theorem removeFac_pos (p : Nat) (hp : 1 < p) : ∀ n, 0 < n → 0 < removeFac p n := by
  intro n
  induction n using Nat.strong_induction_on with
  | _ n ih =>
    intro hn
    rw [removeFac_unfold]
    by_cases h : 1 < p ∧ 0 < n ∧ p ∣ n
    · rw [if_pos h]
      have hlt : n / p < n := Nat.div_lt_self h.2.1 hp
      exact ih (n / p) hlt (Nat.div_pos (Nat.le_of_dvd h.2.1 h.2.2) (by omega))
    · rwa [if_neg h]

theorem multOf_pow_mul (p k m : Nat) (hp : 1 < p) (hm : ¬ p ∣ m) :
    multOf p (p ^ k * m) = k := by
  induction k with
  | zero =>
    rw [multOf_unfold, if_neg]
    rintro ⟨-, -, hd⟩
    simp at hd
    exact hm hd
  | succ k ih =>
    have hm0 : 0 < m := by
      rcases Nat.eq_zero_or_pos m with h | h
      · exact absurd (h ▸ Dvd.intro 0 rfl) hm
      · exact h
    rw [multOf_unfold, if_pos]
    · have : p ^ (k + 1) * m / p = p ^ k * m := by
        rw [pow_succ]
        rw [show p ^ k * p * m = p ^ k * m * p by ring]
        exact Nat.mul_div_cancel _ (by omega)
      rw [this, ih]
    · refine ⟨hp, ?_, ?_⟩
      · positivity
      · exact dvd_mul_of_dvd_left (dvd_pow_self p (Nat.succ_ne_zero k)) m


theorem decimalDen_dvd (n : Nat) (hn : 0 < n) (hd : decimalDen n = true) :
    n ∣ 10 ^ max (multOf 2 n) (multOf 5 n) := by
  have h2 : 2 ^ multOf 2 n * removeFac 2 n = n :=
    pow_multOf_mul_removeFac 2 (by norm_num) n
  have h5 : removeFac 5 (removeFac 2 n) = 1 := by simpa [decimalDen] using hd
  have h5' : 5 ^ multOf 5 (removeFac 2 n) * removeFac 5 (removeFac 2 n) = removeFac 2 n :=
    pow_multOf_mul_removeFac 5 (by norm_num) (removeFac 2 n)
  rw [h5, mul_one] at h5'
  have h5nd : ¬ (5 : Nat) ∣ 2 ^ multOf 2 n := by
    intro h
    have := Nat.Prime.dvd_of_dvd_pow (by norm_num) h
    omega
  have hn_eq : n = 2 ^ multOf 2 n * 5 ^ multOf 5 (removeFac 2 n) := by
    rw [h5', h2]
  have hmb : multOf 5 n = multOf 5 (removeFac 2 n) := by
    conv_lhs => rw [hn_eq, mul_comm]
    exact multOf_pow_mul 5 _ _ (by norm_num) h5nd
  rw [hmb]
  have h10 : (10:Nat) ^ max (multOf 2 n) (multOf 5 (removeFac 2 n)) =
      2 ^ max (multOf 2 n) (multOf 5 (removeFac 2 n)) *
        5 ^ max (multOf 2 n) (multOf 5 (removeFac 2 n)) := by
    rw [show (10:Nat) = 2 * 5 from rfl, Nat.mul_pow]
  rw [h10]
  nth_rewrite 1 [hn_eq]
  exact Nat.mul_dvd_mul (pow_dvd_pow 2 (le_max_left _ _))
    (pow_dvd_pow 5 (le_max_right _ _))

theorem digitVal_decDigitChar (d : Nat) (h : d < 10) :
    digitVal? (decDigitChar d) = some d := by
  interval_cases d <;> decide

theorem decDigitChar_props (d : Nat) (h : d < 10) :
    isJsWhitespace (decDigitChar d) = false ∧ decDigitChar d ≠ '"' ∧
    decDigitChar d ≠ ',' ∧ decDigitChar d ≠ '\n' ∧ decDigitChar d ≠ '(' ∧
    decDigitChar d ≠ ')' ∧ decDigitChar d ≠ '-' ∧ decDigitChar d ≠ '+' ∧
    decDigitChar d ≠ '.' := by
  interval_cases d <;> decide

theorem natCharsBE_digits (n : Nat) :
    ∀ c ∈ natCharsBE n, ∃ d, d < 10 ∧ c = decDigitChar d := by
  intro c hc
  simp only [natCharsBE, List.mem_reverse, List.mem_map] at hc
  obtain ⟨d, hd, rfl⟩ := hc
  refine ⟨d, ?_, rfl⟩
  rw [natDigits_eq] at hd
  exact Nat.digits_lt_base (by norm_num) hd

theorem natCharsOrZero_digits (n : Nat) :
    ∀ c ∈ natCharsOrZero n, ∃ d, d < 10 ∧ c = decDigitChar d := by
  intro c hc
  unfold natCharsOrZero at hc
  by_cases h : n = 0
  · rw [if_pos h] at hc
    simp at hc
    exact ⟨0, by norm_num, by rw [hc]; rfl⟩
  · rw [if_neg h] at hc
    exact natCharsBE_digits n c hc

theorem natCharsOrZero_ne_nil (n : Nat) : natCharsOrZero n ≠ [] := by
  unfold natCharsOrZero
  by_cases h : n = 0
  · rw [if_pos h]; simp
  · rw [if_neg h]
    simp only [natCharsBE, natDigits_eq]
    simp [Nat.digits_ne_nil_iff_ne_zero.mpr h]

theorem takeDigits_digits_append (ds : List Nat) (rest : List Char)
    (hds : ∀ d ∈ ds, d < 10)
    (hrest : ∀ c, rest.head? = some c → digitVal? c = none) :
    takeDigits (ds.map decDigitChar ++ rest) = (ds, rest) := by
  induction ds with
  | nil =>
    cases rest with
    | nil => rfl
    | cons c cs =>
      have hc := hrest c rfl
      simp [takeDigits, hc]
  | cons d t ih =>
    have hd : d < 10 := hds d (by simp)
    simp only [List.map_cons, List.cons_append, takeDigits,
      digitVal_decDigitChar d hd]
    rw [show (List.map decDigitChar t).append rest =
          List.map decDigitChar t ++ rest from rfl]
    rw [ih (fun x hx => hds x (by simp [hx]))]

theorem natCharsOrZero_eq_map (n : Nat) :
    natCharsOrZero n = (intDigitsBE n).map decDigitChar := by
  unfold natCharsOrZero intDigitsBE
  by_cases h : n = 0
  · rw [if_pos h, if_pos h]; rfl
  · rw [if_neg h, if_neg h, natCharsBE, List.map_reverse]

theorem digitsToNat_intDigitsBE (n : Nat) : digitsToNat (intDigitsBE n) = n := by
  unfold intDigitsBE
  by_cases h : n = 0
  · rw [if_pos h, h]; decide
  · rw [if_neg h]; exact digitsToNat_rev_digits n

theorem intDigitsBE_lt (n : Nat) : ∀ d ∈ intDigitsBE n, d < 10 := by
  intro d hdm
  unfold intDigitsBE at hdm
  by_cases h : n = 0
  · rw [if_pos h] at hdm; simp at hdm; omega
  · rw [if_neg h] at hdm
    rw [List.mem_reverse, natDigits_eq] at hdm
    exact Nat.digits_lt_base (by norm_num) hdm

theorem intDigitsBE_ne_nil (n : Nat) : intDigitsBE n ≠ [] := by
  unfold intDigitsBE
  by_cases h : n = 0
  · rw [if_pos h]; simp
  · rw [if_neg h]
    simp [natDigits_eq, Nat.digits_ne_nil_iff_ne_zero.mpr h]

theorem decChars_classify (q : Rat) :
    ∀ c ∈ decChars q, c = '.' ∨ ∃ d, d < 10 ∧ c = decDigitChar d := by
  intro c hc
  unfold decChars at hc
  by_cases he : decExp q = 0
  · rw [if_pos he] at hc
    exact Or.inr (natCharsOrZero_digits _ c hc)
  · rw [if_neg he] at hc
    rcases List.mem_append.mp hc with h | h
    · exact Or.inr (natCharsOrZero_digits _ c h)
    · rcases List.mem_cons.mp h with rfl | h2
      · exact Or.inl rfl
      · unfold padZeros at h2
        rcases List.mem_append.mp h2 with h3 | h3
        · rw [List.eq_of_mem_replicate h3]
          exact Or.inr ⟨0, by norm_num, rfl⟩
        · exact Or.inr (natCharsBE_digits _ c h3)

theorem padZeros_eq_map (e lo : Nat) :
    padZeros e (natCharsBE lo) =
      (List.replicate (e - (natDigits lo).length) 0 ++ (natDigits lo).reverse).map
        decDigitChar := by
  unfold padZeros natCharsBE
  rw [List.map_append, List.map_replicate, List.map_reverse]
  congr 2
  simp

theorem digitsToNat_padList (e lo : Nat) :
    digitsToNat (List.replicate (e - (natDigits lo).length) 0 ++ (natDigits lo).reverse) = lo := by
  rw [digitsToNat_pad, digitsToNat_rev_digits]

theorem padList_lt (e lo : Nat) :
    ∀ d ∈ List.replicate (e - (natDigits lo).length) 0 ++ (natDigits lo).reverse, d < 10 := by
  intro d hdm
  rcases List.mem_append.mp hdm with h | h
  · rw [List.eq_of_mem_replicate h]; norm_num
  · rw [List.mem_reverse, natDigits_eq] at h
    exact Nat.digits_lt_base (by norm_num) h

theorem padList_length (e lo : Nat) (h : lo < 10 ^ e) :
    (List.replicate (e - (natDigits lo).length) 0 ++ (natDigits lo).reverse).length = e := by
  have hlen : (natDigits lo).length ≤ e := by
    rw [natDigits_eq]
    exact digitsLen_le lo e h
  simp [List.length_append, List.length_replicate]
  omega

theorem key_mantissa (q : Rat) (h0 : 0 ≤ q) (hd : decimalDen q.den = true) :
    (decMantissa q : Rat) = q * 10 ^ decExp q := by
  have hnum : (q.num.natAbs : Int) = q.num := Int.natAbs_of_nonneg (Rat.num_nonneg.mpr h0)
  have hden_pos : 0 < q.den := q.pos
  have hdvd : q.den ∣ 10 ^ decExp q := decimalDen_dvd q.den hden_pos hd
  have hm_mul : decMantissa q * q.den = q.num.natAbs * 10 ^ decExp q :=
    Nat.div_mul_cancel (Dvd.dvd.mul_left hdvd _)
  have hdq : (q.den : Rat) ≠ 0 := by positivity
  have hq : q * (q.den : Rat) = (q.num : Rat) := by
    nth_rewrite 1 [← Rat.num_div_den q]
    exact div_mul_cancel₀ _ hdq
  have habs : ((q.num.natAbs : Nat) : Rat) = (q.num : Rat) := by
    rw [Int.cast_natAbs]
    simp [abs_of_nonneg (Rat.num_nonneg.mpr h0)]
  have hcast0 := congrArg (Nat.cast : Nat → Rat) hm_mul
  push_cast at hcast0
  rw [habs] at hcast0
  have hfin : (decMantissa q : Rat) * (q.den : Rat) = (q * 10 ^ decExp q) * (q.den : Rat) := by
    rw [hcast0, ← hq]; ring
  exact mul_right_cancel₀ hdq hfin

theorem dropWhile_decChars (q : Rat) :
    (decChars q).dropWhile isJsWhitespace = decChars q := by
  cases hc : decChars q with
  | nil => rfl
  | cons c cs =>
    have hcin : c ∈ decChars q := by rw [hc]; simp
    rcases decChars_classify q c hcin with h | ⟨d, hd10, rfl⟩
    · subst h
      rw [List.dropWhile_cons, if_neg (by decide)]
    · rw [List.dropWhile_cons, if_neg (by simp [(decDigitChar_props d hd10).1])]

theorem parseSignedDec_decChars (q : Rat) :
    parseSignedDec (decChars q) = parseDecMantissa (decChars q) := by
  have hne : decChars q ≠ [] := by
    unfold decChars
    by_cases he : decExp q = 0
    · rw [if_pos he]; exact natCharsOrZero_ne_nil _
    · rw [if_neg he]; simp [natCharsOrZero_ne_nil]
  cases hc : decChars q with
  | nil => exact absurd hc hne
  | cons c cs =>
    have hcin : c ∈ decChars q := by rw [hc]; simp
    have hprops : c ≠ '-' ∧ c ≠ '+' := by
      rcases decChars_classify q c hcin with h | ⟨d, hd10, rfl⟩
      · subst h; exact ⟨by decide, by decide⟩
      · exact ⟨(decDigitChar_props d hd10).2.2.2.2.2.2.1,
          (decDigitChar_props d hd10).2.2.2.2.2.2.2.1⟩
    simp [parseSignedDec, hprops.1, hprops.2]

theorem parseDecMantissa_int (ds : List Nat) (hlt : ∀ d ∈ ds, d < 10) (hne : ds ≠ []) :
    parseDecMantissa (ds.map decDigitChar) = some ((digitsToNat ds : Rat), []) := by
  unfold parseDecMantissa
  rw [show ds.map decDigitChar = ds.map decDigitChar ++ [] from by simp]
  rw [takeDigits_digits_append ds [] hlt (by intro c h; simp at h)]
  simp [hne]

theorem parseDecMantissa_frac (ds fs : List Nat)
    (hlt : ∀ d ∈ ds, d < 10) (hflt : ∀ d ∈ fs, d < 10) (hne : ds ≠ []) :
    parseDecMantissa (ds.map decDigitChar ++ '.' :: fs.map decDigitChar) =
      some ((digitsToNat ds : Rat) + mkRat (digitsToNat fs) (10 ^ fs.length), []) := by
  unfold parseDecMantissa
  rw [takeDigits_digits_append ds _ hlt (by intro c h; simp at h; rw [← h]; decide)]
  simp only
  rw [show fs.map decDigitChar = fs.map decDigitChar ++ [] from by simp]
  rw [takeDigits_digits_append fs [] hflt (by intro c h; simp at h)]
  simp [hne]

theorem mkRat_natCast (a b : Nat) : mkRat (a : Int) b = (a : Rat) / (b : Rat) := by
  rw [Rat.mkRat_eq_div]
  push_cast
  ring

theorem jsParseFloat_render (q : Rat) (h0 : 0 ≤ q) (hd : decimalDen q.den = true) :
    jsParseFloat (jsNumToString q) = some q := by
  rw [jsNumToString, if_neg (not_lt.mpr h0)]
  unfold jsParseFloat
  rw [show (String.mk (decChars q)).toList = decChars q from rfl]
  rw [dropWhile_decChars, parseSignedDec_decChars]
  have hkey := key_mantissa q h0 hd
  by_cases he : decExp q = 0
  · rw [show decChars q = natCharsOrZero (decMantissa q) from by
      unfold decChars; rw [if_pos he]]
    rw [natCharsOrZero_eq_map,
      parseDecMantissa_int _ (intDigitsBE_lt _) (intDigitsBE_ne_nil _)]
    simp only [digitsToNat_intDigitsBE]
    rw [hkey, he, pow_zero, mul_one]
  · have hlo : decMantissa q % 10 ^ decExp q < 10 ^ decExp q :=
      Nat.mod_lt _ (by positivity)
    rw [show decChars q = natCharsOrZero (decMantissa q / 10 ^ decExp q) ++
        '.' :: padZeros (decExp q) (natCharsBE (decMantissa q % 10 ^ decExp q)) from by
      unfold decChars; rw [if_neg he]]
    rw [natCharsOrZero_eq_map, padZeros_eq_map,
      parseDecMantissa_frac _ _ (intDigitsBE_lt _) (padList_lt _ _) (intDigitsBE_ne_nil _)]
    simp only [digitsToNat_intDigitsBE, digitsToNat_padList, padList_length _ _ hlo]
    congr 1
    have h10 : ((10 : Rat)) ^ decExp q ≠ 0 := by positivity
    rw [mkRat_natCast]
    have hdm := Nat.div_add_mod (decMantissa q) (10 ^ decExp q)
    have hdm' : ((10 : Rat)) ^ decExp q * (decMantissa q / 10 ^ decExp q : Nat) +
        (decMantissa q % 10 ^ decExp q : Nat) = (decMantissa q : Rat) := by
      exact_mod_cast congrArg (Nat.cast : Nat → Rat) hdm
    push_cast
    field_simp
    linear_combination hdm' + hkey

theorem dropWhile_head_false (p : Char → Bool) (l : List Char)
    (h : ∀ c, l.head? = some c → p c = false) : l.dropWhile p = l := by
  cases l with
  | nil => rfl
  | cons c cs => rw [List.dropWhile_cons, if_neg (by simp [h c rfl])]

theorem trimChars_noop (l : List Char)
    (h1 : ∀ c, l.head? = some c → isJsWhitespace c = false)
    (h2 : ∀ c, l.getLast? = some c → isJsWhitespace c = false) :
    trimChars l = l := by
  unfold trimChars
  rw [dropWhile_head_false _ _ h1,
    dropWhile_head_false _ _ (fun c hc => h2 c (by rwa [← List.head?_reverse])),
    List.reverse_reverse]

theorem splitOnChar_ne_nil (sep : Char) (l : List Char) : splitOnChar sep l ≠ [] := by
  cases l with
  | nil => simp [splitOnChar]
  | cons c cs =>
    rw [splitOnChar]
    by_cases h : c = sep
    · simp [h]
    · rw [if_neg h]
      cases splitOnChar sep cs <;> simp

theorem splitOnChar_not_mem (sep : Char) (l : List Char) (h : sep ∉ l) :
    splitOnChar sep l = [l] := by
  induction l with
  | nil => rfl
  | cons c cs ih =>
    rw [splitOnChar, if_neg (by intro hc; exact h (hc ▸ List.mem_cons_self c cs))]
    rw [ih (fun hm => h (List.mem_cons_of_mem c hm))]

theorem splitOnChar_append (sep : Char) (l r : List Char) (h : sep ∉ l) :
    splitOnChar sep (l ++ sep :: r) = l :: splitOnChar sep r := by
  induction l with
  | nil => simp [splitOnChar]
  | cons c cs ih =>
    rw [List.cons_append, splitOnChar,
      if_neg (by intro hc; exact h (hc ▸ List.mem_cons_self c cs)),
      ih (fun hm => h (List.mem_cons_of_mem c hm))]

theorem mem_escChars (x : Char) (l : List Char) (hx : x ∈ escChars l) :
    x ∈ l ∨ x = '"' := by
  unfold escChars at hx
  rw [List.mem_flatten] at hx
  obtain ⟨sub, hsub, hxin⟩ := hx
  rw [List.mem_map] at hsub
  obtain ⟨c, hc, rfl⟩ := hsub
  by_cases h : c = '"'
  · rw [if_pos h] at hxin
    simp at hxin
    exact Or.inr hxin
  · rw [if_neg h] at hxin
    simp at hxin
    exact Or.inl (hxin ▸ hc)

theorem mem_joinQuotedChars (x : Char) (L : List (List Char)) (hx : x ∈ joinQuotedChars L) :
    x = '"' ∨ x = ',' ∨ ∃ s ∈ L, x ∈ s := by
  induction L with
  | nil => simp [joinQuotedChars] at hx
  | cons s rest ih =>
    cases rest with
    | nil =>
      simp only [joinQuotedChars] at hx
      rcases List.mem_cons.mp hx with h | h
      · exact Or.inl h
      · rcases List.mem_append.mp h with h2 | h2
        · rcases mem_escChars x s h2 with h3 | h3
          · exact Or.inr (Or.inr ⟨s, by simp, h3⟩)
          · exact Or.inl h3
        · simp at h2
          exact Or.inl h2
    | cons s2 rest2 =>
      simp only [joinQuotedChars] at hx
      rcases List.mem_cons.mp hx with h | h
      · exact Or.inl h
      · rcases List.mem_append.mp h with h2 | h2
        · rcases mem_escChars x s h2 with h3 | h3
          · exact Or.inr (Or.inr ⟨s, by simp, h3⟩)
          · exact Or.inl h3
        · rcases List.mem_cons.mp h2 with h3 | h3
          · exact Or.inl h3
          · rcases List.mem_cons.mp h3 with h4 | h4
            · exact Or.inr (Or.inl h4)
            · rcases ih h4 with h5 | h5 | ⟨t, ht, hxt⟩
              · exact Or.inl h5
              · exact Or.inr (Or.inl h5)
              · exact Or.inr (Or.inr ⟨t, by simp [ht], hxt⟩)

theorem joinQuotedChars_head (s : List Char) (rest : List (List Char)) :
    (joinQuotedChars (s :: rest)).head? = some '"' := by
  cases rest <;> rfl

theorem joinQuotedChars_ne_nil (s : List Char) (rest : List (List Char)) :
    joinQuotedChars (s :: rest) ≠ [] := by
  intro h
  have := joinQuotedChars_head s rest
  rw [h] at this
  simp at this

theorem getLast?_cons_ne (a : Char) (l : List Char) (h : l ≠ []) :
    (a :: l).getLast? = l.getLast? := by
  cases l with
  | nil => exact absurd rfl h
  | cons b t => simp [List.getLast?_cons]

theorem joinQuotedChars_getLast (s : List Char) (rest : List (List Char)) :
    (joinQuotedChars (s :: rest)).getLast? = some '"' := by
  induction rest generalizing s with
  | nil =>
    rw [show joinQuotedChars [s] = ('"' :: escChars s) ++ ['"'] from by
      simp [joinQuotedChars]]
    exact List.getLast?_concat _
  | cons s2 rest2 ih =>
    rw [show joinQuotedChars (s :: s2 :: rest2) =
        '"' :: (escChars s ++ ('"' :: ',' :: joinQuotedChars (s2 :: rest2))) from by
      simp [joinQuotedChars]]
    rw [getLast?_cons_ne _ _ (by simp), List.getLast?_append, getLast?_cons_ne _ _ (by simp),
      getLast?_cons_ne _ _ (joinQuotedChars_ne_nil s2 rest2), ih s2]
    rfl

theorem hasSubChars_single_false (c : Char) (l : List Char) (h : c ∉ l) :
    hasSubChars [c] l = false := by
  induction l with
  | nil => rfl
  | cons d ds ih =>
    rw [hasSubChars]
    have hdc : ¬ (c = d) := fun hcd => h (hcd ▸ List.mem_cons_self d ds)
    simp [startsWithChars, hdc, ih (fun hm => h (List.mem_cons_of_mem d hm))]

theorem jsIncludes_single_false (s : String) (c : Char) (h : c ∉ s.toList) :
    jsIncludes s (String.mk [c]) = false := by
  unfold jsIncludes
  exact hasSubChars_single_false c s.toList h

theorem decChars_not_special (q : Rat) :
    ∀ c ∈ decChars q, isJsWhitespace c = false ∧ c ≠ '(' ∧ c ≠ ')' ∧ c ≠ '\n' := by
  intro c hc
  rcases decChars_classify q c hc with rfl | ⟨d, hd10, rfl⟩
  · exact ⟨by decide, by decide, by decide, by decide⟩
  · obtain ⟨hws, -, -, hnl, hlp, hrp, -⟩ := decDigitChar_props d hd10
    exact ⟨hws, hlp, hrp, hnl⟩

theorem decChars_ne_nil (q : Rat) : decChars q ≠ [] := by
  unfold decChars
  by_cases he : decExp q = 0
  · rw [if_pos he]; exact natCharsOrZero_ne_nil _
  · rw [if_neg he]; simp [natCharsOrZero_ne_nil]

theorem jsNumToString_toList (q : Rat) (h0 : 0 ≤ q) :
    (jsNumToString q).toList = decChars q := by
  rw [jsNumToString, if_neg (not_lt.mpr h0)]
  rfl

theorem render_clean (q : Rat) (h0 : 0 ≤ q) :
    jsTrim (jsNumToString q) = jsNumToString q ∧
    hasParens (jsNumToString q) = false ∧
    (jsTrim (jsNumToString q)).isEmpty = false ∧
    '\n' ∉ (jsNumToString q).toList := by
  have htl := jsNumToString_toList q h0
  have htrim : trimChars (jsNumToString q).toList = (jsNumToString q).toList := by
    rw [htl]
    apply trimChars_noop
    · intro c hc
      exact (decChars_not_special q c (List.mem_of_mem_head? hc)).1
    · intro c hc
      exact (decChars_not_special q c (List.mem_of_mem_getLast? hc)).1
  refine ⟨?_, ?_, ?_, ?_⟩
  · rw [jsTrim, htrim]
    cases jsNumToString q
    rfl
  · unfold hasParens
    have h1 : jsIncludes (jsNumToString q) "(" = false := by
      rw [show "(" = String.mk ['('] from rfl]
      apply jsIncludes_single_false
      rw [htl]
      intro hm
      exact absurd rfl (decChars_not_special q '(' hm).2.1
    rw [h1]
    rfl
  · rw [jsTrim, htrim]
    have hmk : String.mk (jsNumToString q).toList = jsNumToString q := by
      cases jsNumToString q
      rfl
    rw [hmk, Bool.eq_false_iff]
    intro hemp
    have hstr := (String.isEmpty_iff _).mp hemp
    have h2 : (jsNumToString q).toList = [] := by rw [hstr]; rfl
    rw [htl] at h2
    exact decChars_ne_nil q h2
  · rw [htl]
    intro hm
    exact absurd rfl (decChars_not_special q '\n' hm).2.2.2

theorem exportRowLine_eq (st : Student) :
    exportRowLine st = exportRowStr st ++ "\n" := by
  unfold exportRowLine exportRowStr cellStrings
  rw [List.map_map]
  rfl

theorem exportRowStr_toList (st : Student) :
    (exportRowStr st).toList = joinQuotedChars ((cellStrings st).map String.toList) := by
  unfold exportRowStr
  exact joinSep_quoteCell_toList _

theorem generateCSV_toList (students : List Student) :
    (generateCSV students).toList =
      '﻿' :: (exportHeaderStr.toList ++ '\n' :: (exportRowsText students).toList) := by
  unfold generateCSV exportHeaderStr
  rw [toList_append, toList_append, toList_append]
  rfl

theorem exportRowsText_toList (students : List Student) :
    (exportRowsText students).toList =
      (students.map (fun st => (exportRowStr st).toList ++ ['\n'])).flatten := by
  induction students with
  | nil => rfl
  | cons st rest ih =>
    rw [exportRowsText, toList_append, exportRowLine_eq, toList_append, ih]
    simp

theorem cleanCellStr_parts (t : String) (ht : cleanCellStr t = true) :
    '\n' ∉ t.toList ∧ jsTrim t = t ∧ hasParens t = false := by
  unfold cleanCellStr at ht
  simp only [Bool.and_eq_true, Bool.not_eq_true', beq_iff_eq] at ht
  refine ⟨?_, ht.1.2, ht.2⟩
  intro hm
  have : t.toList.contains '\n' = true := by
    rw [List.contains_iff_exists_mem_beq]
    exact ⟨'\n', hm, rfl⟩
  rw [this] at ht
  exact Bool.noConfusion ht.1.1

theorem cellStrings_shape (st : Student) :
    cellStrings st =
      [orEmptyStr st.student_id, orEmptyStr st.full_name, orEmptyStr st.email,
       orEmptyStr st.birth_date, orEmptyStr st.hometown,
       jsNumToString (orZeroNum st.math_score),
       jsNumToString (orZeroNum st.literature_score),
       jsNumToString (orZeroNum st.english_score),
       jsNumToString (orZeroNum st.average_score)] := rfl

theorem scoreOk_parts (q : Rat) (h : scoreOk q = true) :
    decimalDen q.den = true ∧ 0 ≤ q ∧ q ≤ 10 := by
  unfold scoreOk at h
  simp only [Bool.and_eq_true, decide_eq_true_eq] at h
  exact ⟨h.1.1, h.1.2, h.2⟩

theorem exportable_parts (r : Student) (h : exportable r = true) :
    cleanCellStr (orEmptyStr r.student_id) = true ∧ (orEmptyStr r.student_id).isEmpty = false ∧
    cleanCellStr (orEmptyStr r.full_name) = true ∧ (orEmptyStr r.full_name).isEmpty = false ∧
    cleanCellStr (orEmptyStr r.email) = true ∧ jsIncludes (orEmptyStr r.email) "@" = true ∧
    cleanCellStr (orEmptyStr r.birth_date) = true ∧ isValidDate (orEmptyStr r.birth_date) = true ∧
    cleanCellStr (orEmptyStr r.hometown) = true ∧
    scoreOk (orZeroNum r.math_score) = true ∧ scoreOk (orZeroNum r.literature_score) = true ∧
    scoreOk (orZeroNum r.english_score) = true ∧
    decimalDen (orZeroNum r.average_score).den = true ∧ 0 ≤ orZeroNum r.average_score := by
  unfold exportable at h
  simp only [Bool.and_eq_true, Bool.not_eq_true', decide_eq_true_eq] at h
  obtain ⟨⟨⟨⟨⟨⟨⟨⟨⟨⟨⟨⟨⟨h1, h2⟩, h3⟩, h4⟩, h5⟩, h6⟩, h7⟩, h8⟩, h9⟩, h10⟩, h11⟩, h12⟩, h13⟩, h14⟩ := h
  exact ⟨h1, h2, h3, h4, h5, h6, h7, h8, h9, h10, h11, h12, h13, h14⟩

theorem cell_clean_all (r : Student) (h : exportable r = true) :
    ∀ s ∈ cellStrings r, jsTrim s = s ∧ hasParens s = false ∧ '\n' ∉ s.toList := by
  obtain ⟨h1, h2, h3, h4, h5, h6, h7, h8, h9, h10, h11, h12, h13, h14⟩ := exportable_parts r h
  intro s hs
  rw [cellStrings_shape] at hs
  have hnum : ∀ q : Rat, 0 ≤ q →
      jsTrim (jsNumToString q) = jsNumToString q ∧
      hasParens (jsNumToString q) = false ∧ '\n' ∉ (jsNumToString q).toList := by
    intro q hq
    obtain ⟨a, b, c, d⟩ := render_clean q hq
    exact ⟨a, b, d⟩
  have hcell : ∀ t : String, cleanCellStr t = true →
      jsTrim t = t ∧ hasParens t = false ∧ '\n' ∉ t.toList := by
    intro t ht
    obtain ⟨a, b, c⟩ := cleanCellStr_parts t ht
    exact ⟨b, c, a⟩
  simp only [List.mem_cons, List.not_mem_nil, or_false] at hs
  rcases hs with rfl | rfl | rfl | rfl | rfl | rfl | rfl | rfl | rfl
  · exact hcell _ h1
  · exact hcell _ h3
  · exact hcell _ h5
  · exact hcell _ h7
  · exact hcell _ h9
  · exact hnum _ (scoreOk_parts _ h10).2.1
  · exact hnum _ (scoreOk_parts _ h11).2.1
  · exact hnum _ (scoreOk_parts _ h12).2.1
  · exact hnum _ h14

theorem cellStrings_toList_shape (r : Student) :
    (cellStrings r).map String.toList =
      (orEmptyStr r.student_id).toList :: [(orEmptyStr r.full_name).toList,
       (orEmptyStr r.email).toList, (orEmptyStr r.birth_date).toList,
       (orEmptyStr r.hometown).toList,
       (jsNumToString (orZeroNum r.math_score)).toList,
       (jsNumToString (orZeroNum r.literature_score)).toList,
       (jsNumToString (orZeroNum r.english_score)).toList,
       (jsNumToString (orZeroNum r.average_score)).toList] := by
  rw [cellStrings_shape]
  rfl

theorem exportRowStr_no_newline (r : Student) (h : exportable r = true) :
    '\n' ∉ (exportRowStr r).toList := by
  rw [exportRowStr_toList]
  intro hm
  rcases mem_joinQuotedChars '\n' _ hm with h1 | h1 | ⟨s, hs, hns⟩
  · exact absurd h1 (by decide)
  · exact absurd h1 (by decide)
  · rw [List.mem_map] at hs
    obtain ⟨t, ht, rfl⟩ := hs
    exact (cell_clean_all r h t ht).2.2 hns

theorem exportRowStr_trim (r : Student) :
    trimChars (exportRowStr r).toList = (exportRowStr r).toList := by
  rw [exportRowStr_toList, cellStrings_toList_shape]
  apply trimChars_noop
  · intro c hc
    rw [joinQuotedChars_head] at hc
    simp at hc
    rw [← hc]; decide
  · intro c hc
    rw [joinQuotedChars_getLast] at hc
    simp at hc
    rw [← hc]; decide

theorem exportRowStr_toList_ne_nil (r : Student) :
    (exportRowStr r).toList ≠ [] := by
  rw [exportRowStr_toList, cellStrings_toList_shape]
  exact joinQuotedChars_ne_nil _ _

theorem splitRows (students : List Student)
    (h : ∀ r ∈ students, exportable r = true) :
    splitOnChar '\n' (exportRowsText students).toList =
      students.map (fun r => (exportRowStr r).toList) ++ [[]] := by
  induction students with
  | nil => rfl
  | cons st rest ih =>
    rw [exportRowsText, toList_append, exportRowLine_eq, toList_append]
    rw [show (("\n" : String)).toList = ['\n'] from rfl]
    rw [List.append_assoc, List.singleton_append]
    rw [splitOnChar_append '\n' _ _ (exportRowStr_no_newline st (h st (by simp)))]
    rw [ih (fun r hr => h r (by simp [hr]))]
    rfl

set_option maxRecDepth 40000 in
theorem headerStr_facts :
    '\n' ∉ exportHeaderStr.toList ∧
    trimChars exportHeaderStr.toList = exportHeaderStr.toList ∧
    exportHeaderStr.toList ≠ [] := by
  refine ⟨?_, ?_, ?_⟩ <;> with_unfolding_all decide

theorem mk_toList (s : String) : String.mk s.toList = s := by
  cases s
  rfl

set_option maxRecDepth 40000 in
theorem csvLines_generateCSV (students : List Student)
    (h : ∀ r ∈ students, exportable r = true) :
    csvLines (generateCSV students) =
      exportHeaderStr :: students.map exportRowStr := by
  unfold csvLines
  rw [generateCSV_toList]
  rw [show stripBOM ('﻿' :: (exportHeaderStr.toList ++ '\n' ::
      (exportRowsText students).toList)) =
      exportHeaderStr.toList ++ '\n' :: (exportRowsText students).toList from by
    rw [stripBOM, if_pos rfl]]
  rw [splitOnChar_append '\n' _ _ headerStr_facts.1]
  rw [splitRows students h]
  rw [List.map_cons, List.map_append, List.map_map]
  rw [headerStr_facts.2.1]
  rw [show List.map (trimChars ∘ fun r => (exportRowStr r).toList) students =
      students.map (fun r => (exportRowStr r).toList) from
    List.map_congr_left (fun r _ => exportRowStr_trim r)]
  rw [show (List.map trimChars [[]] : List (List Char)) = [[]] from rfl]
  rw [List.filter_cons, if_pos (by simpa using headerStr_facts.2.2)]
  rw [List.filter_append]
  rw [show List.filter (fun l => !l.isEmpty) [([] : List Char)] = [] from rfl]
  rw [List.filter_eq_self.mpr (by
    intro l hl
    rw [List.mem_map] at hl
    obtain ⟨r, hr, rfl⟩ := hl
    simpa using exportRowStr_toList_ne_nil r)]
  rw [List.append_nil, List.map_cons, List.map_map]
  rw [mk_toList]
  congr 1

theorem isEmpty_false_iff (s : String) : s.isEmpty = false ↔ s.toList ≠ [] := by
  constructor
  · intro h hl
    have : s = "" := by
      cases s with
      | mk data =>
        cases data with
        | nil => rfl
        | cons c cs => simp at hl
    rw [this] at h
    simp [String.isEmpty] at h
  · intro h
    rw [Bool.eq_false_iff]
    intro he
    have := (String.isEmpty_iff s).mp he
    rw [this] at h
    exact h rfl

theorem trim_head_not_ws (l : List Char) (c : Char) (cs : List Char)
    (hl : l = c :: cs) (ht : trimChars l = l) : isJsWhitespace c = false := by
  subst hl
  by_contra hw
  rw [Bool.not_eq_false] at hw
  unfold trimChars at ht
  rw [List.dropWhile_cons, if_pos (by simp [hw])] at ht
  have hlen := congrArg List.length ht
  have h1 : (List.dropWhile isJsWhitespace cs).length ≤ cs.length :=
    List.Sublist.length_le (List.dropWhile_sublist _)
  have h2 : ((List.dropWhile isJsWhitespace cs).reverse.dropWhile isJsWhitespace).length ≤
      (List.dropWhile isJsWhitespace cs).reverse.length :=
    List.Sublist.length_le (List.dropWhile_sublist _)
  simp at hlen h2
  omega

theorem jsIncludes_ne_empty (s t : String) (c : Char) (cs : List Char)
    (htc : t.toList = c :: cs) (h : jsIncludes s t = true) : s.isEmpty = false := by
  rw [isEmpty_false_iff]
  intro hl
  unfold jsIncludes at h
  rw [hl, htc] at h
  simp [hasSubChars, startsWithChars] at h

theorem splitOnChar_cons_head (sep c : Char) (cs : List Char) (hc : ¬ c = sep) :
    ∃ h t, splitOnChar sep (c :: cs) = (c :: h) :: t := by
  rw [splitOnChar, if_neg hc]
  cases hsp : splitOnChar sep cs with
  | nil => exact absurd hsp (splitOnChar_ne_nil sep cs)
  | cons hd tl => exact ⟨hd, tl, rfl⟩

theorem joinSep_head_ne_empty (x : String) (xs : List String)
    (hx : x.isEmpty = false) : (joinSep " " (x :: xs)).isEmpty = false := by
  cases xs with
  | nil => exact hx
  | cons y ys =>
    rw [show joinSep " " (x :: y :: ys) = x ++ " " ++ joinSep " " (y :: ys) from rfl,
      isEmpty_false_iff, toList_append, toList_append]
    rw [isEmpty_false_iff] at hx
    intro hcontra
    rcases List.append_eq_nil.mp hcontra with ⟨h1, -⟩
    rcases List.append_eq_nil.mp h1 with ⟨h2, -⟩
    exact hx h2

theorem nameSplitFirst_ne_empty (value : String) (ht : jsTrim value = value)
    (hne : value.isEmpty = false) : (nameSplitFirst value).isEmpty = false := by
  unfold nameSplitFirst
  by_cases hlen : (nameParts value).length ≥ 2
  · rw [if_pos hlen]
    have htl : trimChars value.toList = value.toList := by
      have := congrArg String.toList ht
      rwa [jsTrim, toList_mk] at this
    obtain ⟨c, cs, hville⟩ : ∃ c cs, value.toList = c :: cs := by
      rw [isEmpty_false_iff] at hne
      cases hv : value.toList with
      | nil => exact absurd hv hne
      | cons c cs => exact ⟨c, cs, rfl⟩
    have hcws : isJsWhitespace c = false := trim_head_not_ws _ c cs hville htl
    have hcsp : ¬ c = ' ' := by
      intro hcc
      rw [hcc] at hcws
      simp [isJsWhitespace] at hcws
    obtain ⟨hh, tt, hsplit⟩ := splitOnChar_cons_head ' ' c cs hcsp
    have hparts : nameParts value = String.mk (c :: hh) :: tt.map String.mk := by
      unfold nameParts
      rw [ht, hville, hsplit, List.map_cons]
    rw [hparts]
    rw [hparts] at hlen
    simp only [List.length_cons, List.length_map] at hlen
    cases htt : tt with
    | nil => rw [htt] at hlen; simp at hlen
    | cons t1 ts =>
      rw [List.map_cons]
      rw [show (String.mk (c :: hh) :: String.mk t1 :: ts.map String.mk).dropLast =
          String.mk (c :: hh) :: (String.mk t1 :: ts.map String.mk).dropLast from rfl]
      apply joinSep_head_ne_empty
      rw [isEmpty_false_iff]
      simp
  · rw [if_neg hlen]
    exact hne

theorem parseCSVRow_exportRowStr (r : Student) (h : exportable r = true) :
    parseCSVRow (exportRowStr r) = cellStrings r := by
  unfold exportRowStr
  rw [parseCSVRow_quoted _ (by rw [cellStrings_shape]; simp)]
  calc (cellStrings r).map jsTrim
      = (cellStrings r).map id :=
        List.map_congr_left (fun s hs => (cell_clean_all r h s hs).1)
    _ = cellStrings r := List.map_id _

theorem applyCell_sid (st : ParsedStudent) (v : String) :
    applyCell st "Mã số sinh viên" v = .ok { st with student_id := some v } := by
  simp [applyCell]

theorem applyCell_name (st : ParsedStudent) (v : String) :
    applyCell st "Họ tên" v = .ok (applyNameCell st v) := by
  simp [applyCell]

theorem applyCell_email (st : ParsedStudent) (v : String) :
    applyCell st "Email" v = .ok { st with email := some v } := by
  simp [applyCell]

theorem applyCell_date (st : ParsedStudent) (v : String) (hv : isValidDate v = true) :
    applyCell st "Ngày sinh" v = .ok { st with birth_date := some v } := by
  simp [applyCell, hv]

theorem applyCell_hometown (st : ParsedStudent) (v : String) :
    applyCell st "Quê quán" v = .ok { st with hometown := some v } := by
  simp [applyCell]

theorem applyCell_math (st : ParsedStudent) (v : String) (q : Rat)
    (hq : jsParseFloat v = some q) (h0 : 0 ≤ q) (h10 : q ≤ 10) :
    applyCell st "Điểm Toán" v = .ok { st with math_score := some q } := by
  simp [applyCell, parseScoreCell, hq, not_lt.mpr h0, not_lt.mpr h10, Except.map]

theorem applyCell_lit (st : ParsedStudent) (v : String) (q : Rat)
    (hq : jsParseFloat v = some q) (h0 : 0 ≤ q) (h10 : q ≤ 10) :
    applyCell st "Điểm Văn" v = .ok { st with literature_score := some q } := by
  simp [applyCell, parseScoreCell, hq, not_lt.mpr h0, not_lt.mpr h10, Except.map]

theorem applyCell_eng (st : ParsedStudent) (v : String) (q : Rat)
    (hq : jsParseFloat v = some q) (h0 : 0 ≤ q) (h10 : q ≤ 10) :
    applyCell st "Điểm Anh" v = .ok { st with english_score := some q } := by
  simp [applyCell, parseScoreCell, hq, not_lt.mpr h0, not_lt.mpr h10, Except.map]

theorem applyCell_avg (st : ParsedStudent) (v : String) :
    applyCell st "Điểm trung bình" v = .ok st := by
  simp [applyCell]

theorem applyCells_cons_ok (st st2 : ParsedStudent) (hd v : String)
    (rest : List (String × String)) (hstep : applyCell st hd (jsTrim v) = .ok st2) :
    applyCells st ((hd, v) :: rest) = applyCells st2 rest := by
  simp [applyCells, hstep]

theorem orEmptyStr_some (s : String) : orEmptyStr (some s) = s := rfl

theorem applyCell_math_h {v : String} {q : Rat}
    (hq : jsParseFloat v = some q) (h0 : 0 ≤ q) (h10 : q ≤ 10) (st : ParsedStudent) :
    applyCell st "Điểm Toán" v = .ok { st with math_score := some q } :=
  applyCell_math st v q hq h0 h10

theorem applyCell_lit_h {v : String} {q : Rat}
    (hq : jsParseFloat v = some q) (h0 : 0 ≤ q) (h10 : q ≤ 10) (st : ParsedStudent) :
    applyCell st "Điểm Văn" v = .ok { st with literature_score := some q } :=
  applyCell_lit st v q hq h0 h10

theorem applyCell_eng_h {v : String} {q : Rat}
    (hq : jsParseFloat v = some q) (h0 : 0 ≤ q) (h10 : q ≤ 10) (st : ParsedStudent) :
    applyCell st "Điểm Anh" v = .ok { st with english_score := some q } :=
  applyCell_eng st v q hq h0 h10

theorem applyCells_export (sid nm em bd ht ms ls es avs : String)
    (hsid : jsTrim sid = sid) (hnm : jsTrim nm = nm) (hem : jsTrim em = em)
    (hbd : jsTrim bd = bd) (hht : jsTrim ht = ht) (hms : jsTrim ms = ms)
    (hls : jsTrim ls = ls) (hes : jsTrim es = es) (havs : jsTrim avs = avs)
    (hbdv : isValidDate bd = true) (qm ql qe : Rat)
    (hmq : jsParseFloat ms = some qm) (hm0 : 0 ≤ qm) (hm10 : qm ≤ 10)
    (hlq : jsParseFloat ls = some ql) (hl0 : 0 ≤ ql) (hl10 : ql ≤ 10)
    (heq : jsParseFloat es = some qe) (he0 : 0 ≤ qe) (he10 : qe ≤ 10) :
    applyCells {} [("Mã số sinh viên", sid), ("Họ tên", nm), ("Email", em),
      ("Ngày sinh", bd), ("Quê quán", ht), ("Điểm Toán", ms), ("Điểm Văn", ls),
      ("Điểm Anh", es), ("Điểm trung bình", avs)] = Except.ok
    { student_id := some sid, first_name := some (nameSplitFirst nm),
      last_name := some (nameSplitLast nm), full_name := some nm,
      email := some em, birth_date := some bd, hometown := some ht,
      math_score := some qm, literature_score := some ql,
      english_score := some qe, average_score := none } := by
  simp only [applyCells, hsid, hnm, hem, hbd, hht, hms, hls, hes, havs,
    applyCell_sid, applyCell_name, applyCell_email, applyCell_date,
    applyCell_hometown, applyCell_math_h hmq hm0 hm10,
    applyCell_lit_h hlq hl0 hl10, applyCell_eng_h heq he0 he10,
    applyCell_avg, hbdv, applyNameCell]

set_option maxHeartbeats 800000 in
theorem buildRow_export (r : Student) (h : exportable r = true) :
    buildRow exportHeaders (cellStrings r) = Except.ok (roundTripView r) := by
  obtain ⟨h1, h2, h3, h4, h5, h6, h7, h8, h9, h10, h11, h12, h13, h14⟩ := exportable_parts r h
  have t1 := (cleanCellStr_parts _ h1).2.1
  have t2 := (cleanCellStr_parts _ h3).2.1
  have t3 := (cleanCellStr_parts _ h5).2.1
  have t4 := (cleanCellStr_parts _ h7).2.1
  have t5 := (cleanCellStr_parts _ h9).2.1
  have hm := scoreOk_parts _ h10
  have hl := scoreOk_parts _ h11
  have hen := scoreOk_parts _ h12
  have tn1 := (render_clean _ hm.2.1).1
  have tn2 := (render_clean _ hl.2.1).1
  have tn3 := (render_clean _ hen.2.1).1
  have tn4 := (render_clean _ h14).1
  have pf1 := jsParseFloat_render _ hm.2.1 hm.1
  have pf2 := jsParseFloat_render _ hl.2.1 hl.1
  have pf3 := jsParseFloat_render _ hen.2.1 hen.1
  unfold buildRow
  rw [cellStrings_shape]
  rw [show exportHeaders.zip
      [orEmptyStr r.student_id, orEmptyStr r.full_name, orEmptyStr r.email,
       orEmptyStr r.birth_date, orEmptyStr r.hometown,
       jsNumToString (orZeroNum r.math_score),
       jsNumToString (orZeroNum r.literature_score),
       jsNumToString (orZeroNum r.english_score),
       jsNumToString (orZeroNum r.average_score)] =
      [("Mã số sinh viên", orEmptyStr r.student_id),
       ("Họ tên", orEmptyStr r.full_name),
       ("Email", orEmptyStr r.email),
       ("Ngày sinh", orEmptyStr r.birth_date),
       ("Quê quán", orEmptyStr r.hometown),
       ("Điểm Toán", jsNumToString (orZeroNum r.math_score)),
       ("Điểm Văn", jsNumToString (orZeroNum r.literature_score)),
       ("Điểm Anh", jsNumToString (orZeroNum r.english_score)),
       ("Điểm trung bình", jsNumToString (orZeroNum r.average_score))] from rfl]
  rw [applyCells_export (orEmptyStr r.student_id) (orEmptyStr r.full_name)
      (orEmptyStr r.email) (orEmptyStr r.birth_date) (orEmptyStr r.hometown)
      (jsNumToString (orZeroNum r.math_score))
      (jsNumToString (orZeroNum r.literature_score))
      (jsNumToString (orZeroNum r.english_score))
      (jsNumToString (orZeroNum r.average_score))
      t1 t2 t3 t4 t5 tn1 tn2 tn3 tn4 h8
      (orZeroNum r.math_score) (orZeroNum r.literature_score)
      (orZeroNum r.english_score)
      pf1 hm.2.1 hm.2.2 pf2 hl.2.1 hl.2.2 pf3 hen.2.1 hen.2.2]
  have hfn : (nameSplitFirst (orEmptyStr r.full_name)).isEmpty = false :=
    nameSplitFirst_ne_empty _ t2 h4
  have hem : (orEmptyStr r.email).isEmpty = false :=
    jsIncludes_ne_empty _ "@" '@' [] rfl h6
  simp only [truthyS, orEmptyStr_some, h2, hfn, hem, h6, Bool.not_false, Bool.and_true,
    Bool.true_and, Bool.not_true, Bool.false_eq_true, if_false, if_true]
  congr 1

theorem cellStrings_length (r : Student) :
    (cellStrings r).length = exportHeaders.length := by
  rw [cellStrings_shape]; rfl

theorem cellStrings_no_parens (r : Student) (h : exportable r = true) :
    (cellStrings r).any hasParens = false := by
  rw [List.any_eq_false]
  intro s hs
  simp [(cell_clean_all r h s hs).2.1]

theorem cellStrings_not_all_empty (r : Student) (h : exportable r = true) :
    (cellStrings r).all (fun v => (jsTrim v).isEmpty) = false := by
  have hp := exportable_parts r h
  have t1 := (cleanCellStr_parts _ hp.1).2.1
  rw [List.all_eq_false]
  refine ⟨orEmptyStr r.student_id, ?_, ?_⟩
  · rw [cellStrings_shape]; simp
  · rw [t1, hp.2.1]; simp

theorem processRows_export (students : List Student) (k : Nat)
    (h : ∀ r ∈ students, exportable r = true) :
    processRows exportHeaders (numberFrom k (students.map exportRowStr)) =
      (students.map roundTripView, ([] : List RowError)) := by
  induction students generalizing k with
  | nil => rfl
  | cons r rest ih =>
    have hr : exportable r = true := h r (by simp)
    have hvals := parseCSVRow_exportRowStr r hr
    rw [List.map_cons]
    rw [show numberFrom k (exportRowStr r :: rest.map exportRowStr) =
        (k, exportRowStr r) :: numberFrom (k + 1) (rest.map exportRowStr) from rfl]
    simp only [processRows]
    rw [hvals, cellStrings_no_parens r hr, cellStrings_not_all_empty r hr]
    simp only [Bool.false_eq_true, if_false]
    rw [if_neg (by rw [cellStrings_length r]; simp)]
    rw [buildRow_export r hr]
    rw [ih (k + 1) (fun x hx => h x (by simp [hx]))]
    rfl

set_option maxRecDepth 40000 in
theorem parseHeader_export :
    (parseCSVRow exportHeaderStr).map jsTrim = exportHeaders := by
  with_unfolding_all decide

set_option maxRecDepth 40000 in
theorem missingRequired_export : missingRequired exportHeaders = [] := by
  with_unfolding_all decide

/-- **C2** (amended). For every nonempty list of records whose cells are
clean (no boundary whitespace, newlines or paired parentheses; student id
and name present; email holding `@`; a valid birth date; scores in
`[0,10]` with finite decimal representations), parsing the generated CSV
reconstructs exactly the records' raw field values, with no row errors:
`parseCSV (generateCSV records) = (records.map roundTripView, [])`. -/
theorem c2_csv_round_trip (records : List Student) (hne : records ≠ [])
    (h : ∀ r ∈ records, exportable r = true) :
    parseCSV (generateCSV records) = (records.map roundTripView, []) := by
  have hlines := csvLines_generateCSV records h
  have hne0 : (generateCSV records).isEmpty = false :=
    (isEmpty_false_iff _).mpr (by rw [generateCSV_toList]; simp)
  obtain ⟨r0, rest0, rfl⟩ := List.exists_cons_of_ne_nil hne
  unfold parseCSV
  rw [hne0, hlines]
  simp only [Bool.false_eq_true, if_false, List.map_cons, List.length_cons,
    List.headD, List.drop]
  rw [if_neg (by omega)]
  rw [parseHeader_export, missingRequired_export]
  simp only [List.isEmpty_nil, if_true]
  rw [show (exportRowStr r0 :: rest0.map exportRowStr) =
      (r0 :: rest0).map exportRowStr from rfl]
  exact processRows_export (r0 :: rest0) 2 h

set_option maxRecDepth 100000 in
/-- **C2** (counterexample to the unrestricted claim). A single record
whose hometown is the ordinary value `Hà Nội (city)` exports to a CSV
from which `parseCSV` reconstructs no row at all: the round trip loses
the record instead of preserving its field values. -/
theorem c2_csv_round_trip_contra :
    (parseCSV (generateCSV [c2Bad])).1 = [] ∧ ([c2Bad] : List Student) ≠ [] := by
  constructor
  · with_unfolding_all decide
  · simp

set_option maxRecDepth 100000 in
/-- **C2** witness: the amended round trip at a concrete record. -/
theorem c2_csv_round_trip_w :
    parseCSV (generateCSV [c2Demo]) = ([roundTripView c2Demo], []) :=
  c2_csv_round_trip [c2Demo] (by simp) (by
    intro r hr
    rw [List.mem_singleton] at hr
    subst hr
    with_unfolding_all decide)

/-- **C6** (counterexample to the preservation half). The tokenizer
applied to the single quoted field `" a "` returns `a`: the leading and
trailing spaces of the quoted content are trimmed away, not preserved
verbatim. -/
theorem c6_quoted_trim_contra :
    parseCSVRow "\" a \"" = ["a"] ∧ (["a"] : List String) ≠ [" a "] := by
  constructor
  · with_unfolding_all decide
  · simp

/-- **C6** (amended). The tokenizer splits on unquoted commas and
collapses escaped double quotes, but it trims boundary whitespace from
EVERY field, quoted or not: tokenizing a row of quoted cells yields each
cell's content boundary-trimmed (`jsTrim`), so whitespace inside quotes
is preserved only away from the field's boundaries. -/
theorem c6_quoted_trim (cells : List String) (hne : cells ≠ []) :
    parseCSVRow (joinSep "," (cells.map quoteCell)) = cells.map jsTrim :=
  parseCSVRow_quoted cells hne

/-- **C6** witness: the amended tokenizer law at two concrete cells, one
with boundary spaces and one with an embedded comma and quote. -/
theorem c6_quoted_trim_w :
    (([" a ", "x,\"y"] : List String) ≠ []) ∧
    parseCSVRow (joinSep "," (([" a ", "x,\"y"] : List String).map quoteCell)) =
      ([" a ", "x,\"y"] : List String).map jsTrim :=
  ⟨by simp, c6_quoted_trim [" a ", "x,\"y"] (by simp)⟩

end StudentMgmt
